import Mathlib

/-!
Verification development for the expression-evaluation core of an embedded
scripting engine (dynamic values, scope search, operator dispatch table,
function-resolution cache, bloom filter, serialization).

The embedding models a build with the `no_float` and `decimal`-off feature
configuration (both payload types are optional in the data model); the
`unchecked`, `debugging`, `no_index`, `no_object` and `no_closure` features
are off, matching the default configuration of the source.

Machine integers are modelled as `Int` or `Nat` with explicit bounds where
overflow matters.  Collaborator code that is not part of the sources under
verification (the general function-resolution path, hash combination, the
data-size calculator, the operation counter, `Scope` and `Module` lookups)
is either modelled from the specification (marked `Modelled from the spec:`)
or passed in as an explicit parameter.
-/

namespace Rhai

/-- Source position, `0` plays the role of `Position::NONE`. -/
abbrev Pos := Nat

/-- Type identity of an opaque host-supplied (`Variant`) payload.  The listed
numeric payload types are exactly the ones `is_numeric` recognises; every
other host type is `other n`. -/
inductive VTid where
  | u8 | u16 | u32 | u64 | i8 | i16 | i32 | u128 | i128 | f32
  | other (n : Nat)
deriving DecidableEq, Repr

/-- Runtime type identity of a `Dynamic` value (`TypeId` in the source). -/
inductive TypeId where
  | tUnit | tBool | tInt | tChar | tStr | tBlob | tArray | tMap
  | tFnPtr | tTimestamp | tExclusiveRange | tInclusiveRange
  | tVariant (v : VTid)
deriving DecidableEq, Repr

/-- The runtime dynamic value (`Dynamic` / its `Union` in the source).
`shared` is the reference-counted interior-mutable cell used for closure
captures; by the stated invariant a `shared` never directly wraps another
`shared`. -/
inductive Dynamic where
  | unit
  | boolean (b : Bool)
  | int (i : Int)
  | char (c : Char)
  | str (s : String)
  | blob (bs : List Nat)
  | array (xs : List Dynamic)
  | map (entries : List (String × Dynamic))
  | fnPtr (name : String)
  | timestamp (id : Nat)
  | exclusiveRange (lo hi : Int)
  | inclusiveRange (lo hi : Int)
  | variant (t : VTid)
  | shared (d : Dynamic)

/-- Type identity of a value; a `shared` cell reports the identity of the
wrapped value (read through the lock). -/
def Dynamic.type_id : Dynamic → TypeId
  | .unit => .tUnit
  | .boolean _ => .tBool
  | .int _ => .tInt
  | .char _ => .tChar
  | .str _ => .tStr
  | .blob _ => .tBlob
  | .array _ => .tArray
  | .map _ => .tMap
  | .fnPtr _ => .tFnPtr
  | .timestamp _ => .tTimestamp
  | .exclusiveRange _ _ => .tExclusiveRange
  | .inclusiveRange _ _ => .tInclusiveRange
  | .variant t => .tVariant t
  | .shared d => d.type_id

/-- Is the value an opaque host-supplied value (`Union::Variant`)?  A
`shared` cell is not itself a variant. -/
def Dynamic.is_variant : Dynamic → Bool
  | .variant _ => true
  | _ => false

/-- `flatten`: convert a possibly shared value into an owned copy by taking
the inner value out of the cell (the inner value is not shared by the
invariant). -/
def Dynamic.flatten : Dynamic → Dynamic
  | .shared d => d
  | d => d

/-- Modelled from the spec: the printable type name used in error
messages (`Dynamic::type_name`, not under the verified sources). -/
def Dynamic.type_name : Dynamic → String
  | .unit => "()"
  | .boolean _ => "bool"
  | .int _ => "i64"
  | .char _ => "char"
  | .str _ => "string"
  | .blob _ => "blob"
  | .array _ => "array"
  | .map _ => "map"
  | .fnPtr _ => "Fn"
  | .timestamp _ => "timestamp"
  | .exclusiveRange _ _ => "range"
  | .inclusiveRange _ _ => "range="
  | .variant _ => "variant"
  | .shared d => d.type_name

/-- Modelled from the spec: `as_bool` coercion succeeds iff the variant
matches and otherwise returns the offending type name
(`Dynamic::as_bool`, not under the verified sources). -/
def Dynamic.as_bool : Dynamic → Except String Bool
  | .boolean b => .ok b
  | d => .error d.type_name

/-- Modelled from the spec: `as_int` coercion (`Dynamic::as_int`). -/
def Dynamic.as_int : Dynamic → Except String Int
  | .int i => .ok i
  | d => .error d.type_name

/-- Modelled from the spec: `as_char` coercion (`Dynamic::as_char`). -/
def Dynamic.as_char : Dynamic → Except String Char
  | .char c => .ok c
  | d => .error d.type_name

/-- Runtime error taxonomy (`EvalAltResult` in the source); every error
carries a source position. -/
inductive ERR where
  | errVariableNotFound (name : String) (pos : Pos)
  | errTypeMismatch (expected actual : String) (pos : Pos)
  | errFunctionNotFound (sig : String) (pos : Pos)
  | errArithmetic (msg : String) (pos : Pos)
  | errDataTooLarge (pos : Pos)
  | errTooManyOperations (pos : Pos)
  | errUnboundThis (pos : Pos)
  | errModuleNotFound (name : String) (pos : Pos)
deriving DecidableEq, Repr

/-- `fill_position`: set the position of an error if it has none. -/
def ERR.fill_position : ERR → Pos → ERR
  | .errVariableNotFound n p, q => .errVariableNotFound n (if p = 0 then q else p)
  | .errTypeMismatch e a p, q => .errTypeMismatch e a (if p = 0 then q else p)
  | .errFunctionNotFound s p, q => .errFunctionNotFound s (if p = 0 then q else p)
  | .errArithmetic m p, q => .errArithmetic m (if p = 0 then q else p)
  | .errDataTooLarge p, q => .errDataTooLarge (if p = 0 then q else p)
  | .errTooManyOperations p, q => .errTooManyOperations (if p = 0 then q else p)
  | .errUnboundThis p, q => .errUnboundThis (if p = 0 then q else p)
  | .errModuleNotFound n p, q => .errModuleNotFound n (if p = 0 then q else p)

/-- Modelled from the spec: the read lock, a shared immutable borrow that
transparently pierces the `shared` variant; here specialised to strings. -/
def Dynamic.rl_str : Dynamic → Option String
  | .str s => some s
  | .shared d => d.rl_str
  | _ => none

/-- Read lock specialised to blobs. -/
def Dynamic.rl_blob : Dynamic → Option (List Nat)
  | .blob bs => some bs
  | .shared d => d.rl_blob
  | _ => none

/-- Read lock specialised to maps. -/
def Dynamic.rl_map : Dynamic → Option (List (String × Dynamic))
  | .map m => some m
  | .shared d => d.rl_map
  | _ => none

/-- Read lock specialised to exclusive ranges (pair of bounds). -/
def Dynamic.rl_xrange : Dynamic → Option (Int × Int)
  | .exclusiveRange lo hi => some (lo, hi)
  | .shared d => d.rl_xrange
  | _ => none

/-- Read lock specialised to inclusive ranges. -/
def Dynamic.rl_irange : Dynamic → Option (Int × Int)
  | .inclusiveRange lo hi => some (lo, hi)
  | .shared d => d.rl_irange
  | _ => none

/-! ## Bloom filter (`src/types/bloom_filter.rs`) -/

/-- Bit position of a `u64` hash value (`BloomFilterU64::hash`): the least
significant byte selects one bit of a 256-bit vector stored as four 64-bit
words; returns the word offset and the bit mask. -/
def bf_hash (value : Nat) : Nat × Nat :=
  let hash := value &&& 0xff
  (hash / 64, 1 <<< (hash % 64))

/-- The word offset of `bf_hash`, bundled with its bound. -/
def bfOffset (value : Nat) : Fin 4 :=
  ⟨(value &&& 0xff) / 64, by
    have h : value &&& 0xff ≤ 0xff := Nat.and_le_right
    omega⟩

/-- The bit mask of `bf_hash`. -/
def bfMask (value : Nat) : Nat := 1 <<< ((value &&& 0xff) % 64)

/-- A simple bloom filter for `u64` hash values: a 256-bit vector stored as
four 64-bit words (`BloomFilterU64`).  Since only single-bit masks are ORed
into each word, the word values never exceed 64 bits. -/
structure BloomFilterU64 where
  bits : Fin 4 → Nat

/-- `BloomFilterU64::new`: all bits zero. -/
def BloomFilterU64.new : BloomFilterU64 := ⟨fun _ => 0⟩

/-- `BloomFilterU64::is_empty`: all words zero. -/
def BloomFilterU64.is_empty (f : BloomFilterU64) : Bool :=
  (List.finRange 4).all fun i => f.bits i == 0

/-- `BloomFilterU64::mark`: OR the hash bit into its word. -/
def BloomFilterU64.mark (f : BloomFilterU64) (hash : Nat) : BloomFilterU64 :=
  ⟨Function.update f.bits (bfOffset hash) (f.bits (bfOffset hash) ||| bfMask hash)⟩

/-- `BloomFilterU64::is_absent`: the hash bit is not set. -/
def BloomFilterU64.is_absent (f : BloomFilterU64) (hash : Nat) : Bool :=
  (f.bits (bfOffset hash) &&& bfMask hash) == 0

theorem and_255_eq_mod (n : Nat) : n &&& 0xff = n % 256 := by
  have h := Nat.and_pow_two_sub_one_eq_mod n 8
  norm_num at h
  exact h

theorem bfOffset_congr {h h' : Nat} (e : h % 256 = h' % 256) : bfOffset h = bfOffset h' := by
  simp only [bfOffset, and_255_eq_mod, e]

theorem bfMask_congr {h h' : Nat} (e : h % 256 = h' % 256) : bfMask h = bfMask h' := by
  simp only [bfMask, and_255_eq_mod, e]

theorem bfMask_two_pow (h : Nat) : bfMask h = 2 ^ ((h &&& 0xff) % 64) := by
  simp [bfMask, Nat.shiftLeft_eq]

theorem and_two_pow_ne_zero_iff (a k : Nat) : (a &&& 2 ^ k ≠ 0) ↔ a.testBit k = true := by
  rw [Nat.and_two_pow]
  cases hb : a.testBit k <;> simp [hb, (Nat.two_pow_pos k).ne']

/-- C9: a fresh `BloomFilterU64` is empty and reports every hash absent;
after `mark h`, `is_absent h` is `false` (no false negatives); `is_absent`
depends only on the low 8 bits of the hash, so marking `h` also makes
`is_absent` false for every hash sharing its low byte; and marking never
flips an `is_absent` result from `false` back to `true`. -/
theorem claim_C9 :
    (BloomFilterU64.new.is_empty = true) ∧
    (∀ h : Nat, BloomFilterU64.new.is_absent h = true) ∧
    (∀ (s : BloomFilterU64) (h : Nat), (s.mark h).is_absent h = false) ∧
    (∀ (s : BloomFilterU64) (h h' : Nat), h % 256 = h' % 256 →
      s.is_absent h = s.is_absent h' ∧ (s.mark h).is_absent h' = false) ∧
    (∀ (s : BloomFilterU64) (h h' : Nat),
      s.is_absent h = false → (s.mark h').is_absent h = false) := by
  have hmark : ∀ (s : BloomFilterU64) (h : Nat), (s.mark h).is_absent h = false := by
    intro s h
    simp only [BloomFilterU64.is_absent, BloomFilterU64.mark, Function.update_same]
    rw [bfMask_two_pow, Nat.and_two_pow, Nat.testBit_or]
    simp [Nat.testBit_two_pow, (Nat.two_pow_pos ((h &&& 0xff) % 64)).ne']
  refine ⟨rfl, ?_, hmark, ?_, ?_⟩
  · intro h
    simp [BloomFilterU64.is_absent, BloomFilterU64.new, Nat.zero_and]
  · intro s h h' e
    constructor
    · simp only [BloomFilterU64.is_absent, bfOffset_congr e, bfMask_congr e]
    · have hthis := hmark s h
      simp only [BloomFilterU64.is_absent, BloomFilterU64.mark] at hthis ⊢
      rw [← bfOffset_congr e, ← bfMask_congr e]
      exact hthis
  · intro s h h' habs
    simp only [BloomFilterU64.is_absent, BloomFilterU64.mark] at habs ⊢
    simp only [beq_eq_false_iff_ne] at habs ⊢
    by_cases he : bfOffset h = bfOffset h'
    · rw [he] at habs ⊢
      rw [Function.update_same]
      simp only [bfMask_two_pow] at habs ⊢
      rw [and_two_pow_ne_zero_iff] at habs ⊢
      rw [Nat.testBit_or, habs, Bool.true_or]
    · rw [Function.update_noteq he]
      exact habs

/-- Concrete instantiation of `claim_C9`: marking hash 300 clears absence of
hash 44 (same low byte), and a later unrelated mark keeps 300 non-absent. -/
theorem claim_C9_witness :
    (BloomFilterU64.new.mark 300).is_absent 44 = false ∧
    ((BloomFilterU64.new.mark 300).mark 7).is_absent 300 = false :=
  ⟨(claim_C9.2.2.2.1 BloomFilterU64.new 300 44 (by decide)).2,
   claim_C9.2.2.2.2 (BloomFilterU64.new.mark 300) 300 7
     (claim_C9.2.2.1 BloomFilterU64.new 300)⟩

/-! ## Built-in operator dispatch table (`src/func/builtin.rs`) -/

/-- Is the type identity a numeric one (`is_numeric`)?  In this build
(`no_float`, no `decimal`) the numeric identities are the integer types. -/
def is_numeric : TypeId → Bool
  | .tInt => true
  | .tVariant .u8 | .tVariant .u16 | .tVariant .u32 | .tVariant .u64 => true
  | .tVariant .i8 | .tVariant .i16 | .tVariant .i32 => true
  | .tVariant .u128 | .tVariant .i128 => true
  | _ => false

/-- A native operator implementation (`FnBuiltin`); it receives the two
operand values (the second is unit for unary entries). -/
abbrev BuiltinFn := Dynamic → Dynamic → Except ERR Dynamic

/-- `OP_CONTAINS` (engine constant). -/
def OP_CONTAINS : String := "contains"

/-- Signed 64-bit bounds for the checked `INT` arithmetic. -/
def INT_MIN : Int := -(2 ^ 63)

/-- Upper bound of `INT`. -/
def INT_MAX : Int := 2 ^ 63 - 1

/-- Modelled from the spec: checked `INT` arithmetic (overflow yields an
`Arithmetic` error); the arithmetic package is not under the verified
sources. -/
def int_checked (r : Int) : Except ERR Dynamic :=
  if r < INT_MIN ∨ INT_MAX < r then .error (.errArithmetic "overflow" 0) else .ok (.int r)

/-- Checked `INT` addition. -/
def int_add (x y : Int) : Except ERR Dynamic := int_checked (x + y)

/-- Checked `INT` subtraction. -/
def int_subtract (x y : Int) : Except ERR Dynamic := int_checked (x - y)

/-- Checked `INT` multiplication. -/
def int_multiply (x y : Int) : Except ERR Dynamic := int_checked (x * y)

/-- Checked `INT` division (truncating, division by zero and
`INT_MIN / -1` are errors). -/
def int_divide (x y : Int) : Except ERR Dynamic :=
  if y = 0 then .error (.errArithmetic "division by zero" 0)
  else if x = INT_MIN ∧ y = -1 then .error (.errArithmetic "overflow" 0)
  else .ok (.int (Int.tdiv x y))

/-- Checked `INT` remainder. -/
def int_modulo (x y : Int) : Except ERR Dynamic :=
  if y = 0 then .error (.errArithmetic "division by zero" 0)
  else if x = INT_MIN ∧ y = -1 then .error (.errArithmetic "overflow" 0)
  else .ok (.int (Int.tmod x y))

/-- Checked `INT` power (negative exponents are errors). -/
def int_power (x y : Int) : Except ERR Dynamic :=
  if y < 0 then .error (.errArithmetic "negative exponent" 0)
  else int_checked (x ^ y.toNat)

/-- Two's-complement wrap of an integer into the signed 64-bit range. -/
def wrap64 (r : Int) : Int := (r + 2 ^ 63) % 2 ^ 64 - 2 ^ 63

/-- Checked `INT` left shift (shift amounts outside `0..63` are errors). -/
def int_shift_left (x y : Int) : Except ERR Dynamic :=
  if y < 0 ∨ 64 ≤ y then .error (.errArithmetic "shift out of range" 0)
  else .ok (.int (wrap64 (x * 2 ^ y.toNat)))

/-- Checked `INT` arithmetic right shift. -/
def int_shift_right (x y : Int) : Except ERR Dynamic :=
  if y < 0 ∨ 64 ≤ y then .error (.errArithmetic "shift out of range" 0)
  else .ok (.int (Int.fdiv x (2 ^ y.toNat)))

/-- Two's-complement 64-bit representative of an integer. -/
def toU64 (x : Int) : Nat := (x % 2 ^ 64).toNat

/-- Bitwise AND on `INT` via the 64-bit representation. -/
def int_and (x y : Int) : Int := wrap64 (toU64 x &&& toU64 y)

/-- Bitwise OR on `INT`. -/
def int_or (x y : Int) : Int := wrap64 (toU64 x ||| toU64 y)

/-- Bitwise XOR on `INT`. -/
def int_xor (x y : Int) : Int := wrap64 (toU64 x ^^^ toU64 y)

/-- String subtraction: remove every occurrence of the second string. -/
def str_sub (a b : String) : String :=
  if b = "" then a else String.join (a.splitOn b)

/-- Substring containment test (`str::contains`). -/
def str_contains_str (s t : String) : Bool :=
  if t = "" then true else 2 ≤ (s.splitOn t).length

/-- First two characters of a string, padded with `'\x00'`. -/
def pad2 (s : String) : Char × Char :=
  match s.data with
  | [] => ('\x00', '\x00')
  | [a] => (a, '\x00')
  | a :: b :: _ => (a, b)

/-- Equality on two-character arrays. -/
def pair2_eq (a b : Char × Char) : Bool := a == b

/-- Inequality on two-character arrays. -/
def pair2_ne (a b : Char × Char) : Bool := a != b

/-- Lexicographic strict order on two-character arrays (derived `Ord` on
`[char; 2]`). -/
def pair2_lt (a b : Char × Char) : Bool :=
  decide (a.1 < b.1) || (a.1 == b.1 && decide (a.2 < b.2))

/-- Lexicographic order-or-equal on two-character arrays. -/
def pair2_le (a b : Char × Char) : Bool :=
  decide (a.1 < b.1) || (a.1 == b.1 && decide (a.2 ≤ b.2))

/-- Reversed strict order. -/
def pair2_gt (a b : Char × Char) : Bool := pair2_lt b a

/-- Reversed order-or-equal. -/
def pair2_ge (a b : Char × Char) : Bool := pair2_le b a

/-- `get_s1s2` for the `(char, string)` cells: the character padded with
`'\x00'` against the first two characters of the string. -/
def get_s1s2_char_str (x y : Dynamic) : (Char × Char) × (Char × Char) :=
  ((x.as_char.toOption.getD '\x00', '\x00'), pad2 (y.rl_str.getD ""))

/-- `get_s1s2` for the `(string, char)` cells. -/
def get_s1s2_str_char (x y : Dynamic) : (Char × Char) × (Char × Char) :=
  (pad2 (x.rl_str.getD ""), (y.as_char.toOption.getD '\x00', '\x00'))

/-- Constant-true cell (used for synthesized default `!=` and unit `==`). -/
def const_true_fn : BuiltinFn := fun _ _ => .ok (.boolean true)

/-- Constant-false cell (synthesized default `==` and orderings). -/
def const_false_fn : BuiltinFn := fun _ _ => .ok (.boolean false)

/-- Comparison cell for `(char, string)` operands: compares the two
two-character arrays produced by `get_s1s2_char_str`. -/
def char_str_cmp_fn (cmp : Char × Char → Char × Char → Bool) : BuiltinFn := fun x y =>
  let p := get_s1s2_char_str x y
  .ok (.boolean (cmp p.1 p.2))

/-- Comparison cell for `(string, char)` operands. -/
def str_char_cmp_fn (cmp : Char × Char → Char × Char → Bool) : BuiltinFn := fun x y =>
  let p := get_s1s2_str_char x y
  .ok (.boolean (cmp p.1 p.2))

/-- Same-type `INT` cells (checked build). -/
def int_cells (op : String) : Option BuiltinFn :=
  match op with
  | "+" => some fun a b => int_add (a.as_int.toOption.getD 0) (b.as_int.toOption.getD 0)
  | "-" => some fun a b => int_subtract (a.as_int.toOption.getD 0) (b.as_int.toOption.getD 0)
  | "*" => some fun a b => int_multiply (a.as_int.toOption.getD 0) (b.as_int.toOption.getD 0)
  | "/" => some fun a b => int_divide (a.as_int.toOption.getD 0) (b.as_int.toOption.getD 0)
  | "%" => some fun a b => int_modulo (a.as_int.toOption.getD 0) (b.as_int.toOption.getD 0)
  | "**" => some fun a b => int_power (a.as_int.toOption.getD 0) (b.as_int.toOption.getD 0)
  | ">>" => some fun a b => int_shift_right (a.as_int.toOption.getD 0) (b.as_int.toOption.getD 0)
  | "<<" => some fun a b => int_shift_left (a.as_int.toOption.getD 0) (b.as_int.toOption.getD 0)
  | "==" => some fun a b => .ok (.boolean (a.as_int.toOption.getD 0 == b.as_int.toOption.getD 0))
  | "!=" => some fun a b => .ok (.boolean (a.as_int.toOption.getD 0 != b.as_int.toOption.getD 0))
  | ">" => some fun a b => .ok (.boolean (decide (b.as_int.toOption.getD 0 < a.as_int.toOption.getD 0)))
  | ">=" => some fun a b => .ok (.boolean (decide (b.as_int.toOption.getD 0 ≤ a.as_int.toOption.getD 0)))
  | "<" => some fun a b => .ok (.boolean (decide (a.as_int.toOption.getD 0 < b.as_int.toOption.getD 0)))
  | "<=" => some fun a b => .ok (.boolean (decide (a.as_int.toOption.getD 0 ≤ b.as_int.toOption.getD 0)))
  | "&" => some fun a b => .ok (.int (int_and (a.as_int.toOption.getD 0) (b.as_int.toOption.getD 0)))
  | "|" => some fun a b => .ok (.int (int_or (a.as_int.toOption.getD 0) (b.as_int.toOption.getD 0)))
  | "^" => some fun a b => .ok (.int (int_xor (a.as_int.toOption.getD 0) (b.as_int.toOption.getD 0)))
  | ".." => some fun a b => .ok (.exclusiveRange (a.as_int.toOption.getD 0) (b.as_int.toOption.getD 0))
  | "..=" => some fun a b => .ok (.inclusiveRange (a.as_int.toOption.getD 0) (b.as_int.toOption.getD 0))
  | _ => none

/-- Same-type `bool` cells. -/
def bool_cells (op : String) : Option BuiltinFn :=
  match op with
  | "==" => some fun a b => .ok (.boolean (a.as_bool.toOption.getD false == b.as_bool.toOption.getD false))
  | "!=" => some fun a b => .ok (.boolean (a.as_bool.toOption.getD false != b.as_bool.toOption.getD false))
  | ">" => some fun a b => .ok (.boolean (a.as_bool.toOption.getD false > b.as_bool.toOption.getD false))
  | ">=" => some fun a b => .ok (.boolean (a.as_bool.toOption.getD false ≥ b.as_bool.toOption.getD false))
  | "<" => some fun a b => .ok (.boolean (a.as_bool.toOption.getD false < b.as_bool.toOption.getD false))
  | "<=" => some fun a b => .ok (.boolean (a.as_bool.toOption.getD false ≤ b.as_bool.toOption.getD false))
  | "&" => some fun a b => .ok (.boolean (a.as_bool.toOption.getD false && b.as_bool.toOption.getD false))
  | "|" => some fun a b => .ok (.boolean (a.as_bool.toOption.getD false || b.as_bool.toOption.getD false))
  | "^" => some fun a b => .ok (.boolean (xor (a.as_bool.toOption.getD false) (b.as_bool.toOption.getD false)))
  | _ => none

/-- Same-type string cells. -/
def str_cells (op : String) : Option BuiltinFn :=
  match op with
  | "+" => some fun a b => .ok (.str ((a.rl_str.getD "") ++ (b.rl_str.getD "")))
  | "-" => some fun a b => .ok (.str (str_sub (a.rl_str.getD "") (b.rl_str.getD "")))
  | "==" => some fun a b => .ok (.boolean ((a.rl_str.getD "") == (b.rl_str.getD "")))
  | "!=" => some fun a b => .ok (.boolean ((a.rl_str.getD "") != (b.rl_str.getD "")))
  | ">" => some fun a b => .ok (.boolean (decide ((b.rl_str.getD "") < (a.rl_str.getD ""))))
  | ">=" => some fun a b => .ok (.boolean (decide ((b.rl_str.getD "") ≤ (a.rl_str.getD ""))))
  | "<" => some fun a b => .ok (.boolean (decide ((a.rl_str.getD "") < (b.rl_str.getD ""))))
  | "<=" => some fun a b => .ok (.boolean (decide ((a.rl_str.getD "") ≤ (b.rl_str.getD ""))))
  | _ =>
    if op = OP_CONTAINS then
      some fun a b => .ok (.boolean (str_contains_str (a.rl_str.getD "") (b.rl_str.getD "")))
    else none

/-- Same-type `char` cells. -/
def char_cells (op : String) : Option BuiltinFn :=
  match op with
  | "+" => some fun a b =>
      .ok (.str (String.mk [a.as_char.toOption.getD '\x00', b.as_char.toOption.getD '\x00']))
  | "==" => some fun a b => .ok (.boolean (a.as_char.toOption.getD '\x00' == b.as_char.toOption.getD '\x00'))
  | "!=" => some fun a b => .ok (.boolean (a.as_char.toOption.getD '\x00' != b.as_char.toOption.getD '\x00'))
  | ">" => some fun a b => .ok (.boolean (decide (b.as_char.toOption.getD '\x00' < a.as_char.toOption.getD '\x00')))
  | ">=" => some fun a b => .ok (.boolean (decide (b.as_char.toOption.getD '\x00' ≤ a.as_char.toOption.getD '\x00')))
  | "<" => some fun a b => .ok (.boolean (decide (a.as_char.toOption.getD '\x00' < b.as_char.toOption.getD '\x00')))
  | "<=" => some fun a b => .ok (.boolean (decide (a.as_char.toOption.getD '\x00' ≤ b.as_char.toOption.getD '\x00')))
  | _ => none

/-- Same-type blob cells. -/
def blob_cells (op : String) : Option BuiltinFn :=
  match op with
  | "+" => some fun a b =>
      let blob1 := a.rl_blob.getD []
      let blob2 := b.rl_blob.getD []
      .ok (.blob (if blob2.isEmpty then blob1 else if blob1.isEmpty then blob2 else blob1 ++ blob2))
  | "==" => some fun a b => .ok (.boolean ((a.rl_blob.getD []) == (b.rl_blob.getD [])))
  | "!=" => some fun a b => .ok (.boolean ((a.rl_blob.getD []) != (b.rl_blob.getD [])))
  | _ => none

/-- Same-type unit cells. -/
def unit_cells (op : String) : Option BuiltinFn :=
  match op with
  | "==" => some const_true_fn
  | "!=" | ">" | ">=" | "<" | "<=" => some const_false_fn
  | _ => none

/-- `(char, string)` cells. -/
def char_str_cells (op : String) : Option BuiltinFn :=
  match op with
  | "+" => some fun a b =>
      .ok (.str (String.mk [a.as_char.toOption.getD '\x00'] ++ (b.rl_str.getD "")))
  | "==" => some (char_str_cmp_fn pair2_eq)
  | "!=" => some (char_str_cmp_fn pair2_ne)
  | ">" => some (char_str_cmp_fn pair2_gt)
  | ">=" => some (char_str_cmp_fn pair2_ge)
  | "<" => some (char_str_cmp_fn pair2_lt)
  | "<=" => some (char_str_cmp_fn pair2_le)
  | _ => none

/-- `(string, char)` cells. -/
def str_char_cells (op : String) : Option BuiltinFn :=
  match op with
  | "+" => some fun a b => .ok (.str ((a.rl_str.getD "").push (b.as_char.toOption.getD '\x00')))
  | "-" => some fun a b =>
      .ok (.str (String.mk ((a.rl_str.getD "").data.filter
        fun c => c ≠ b.as_char.toOption.getD '\x00')))
  | "==" => some (str_char_cmp_fn pair2_eq)
  | "!=" => some (str_char_cmp_fn pair2_ne)
  | ">" => some (str_char_cmp_fn pair2_gt)
  | ">=" => some (str_char_cmp_fn pair2_ge)
  | "<" => some (str_char_cmp_fn pair2_lt)
  | "<=" => some (str_char_cmp_fn pair2_le)
  | _ =>
    if op = OP_CONTAINS then
      some fun a b =>
        .ok (.boolean ((a.rl_str.getD "").data.contains (b.as_char.toOption.getD '\x00')))
    else none

/-- `((), string)` cells. -/
def unit_str_cells (op : String) : Option BuiltinFn :=
  match op with
  | "+" => some fun _ b => .ok b
  | "==" | ">" | ">=" | "<" | "<=" => some const_false_fn
  | "!=" => some const_true_fn
  | _ => none

/-- `(string, ())` cells. -/
def str_unit_cells (op : String) : Option BuiltinFn :=
  match op with
  | "+" => some fun a _ => .ok a
  | "==" | ">" | ">=" | "<" | "<=" => some const_false_fn
  | "!=" => some const_true_fn
  | _ => none

/-- `(blob, INT)` cells. -/
def blob_int_cells (op : String) : Option BuiltinFn :=
  if op = OP_CONTAINS then
    some fun a b =>
      let blob := a.rl_blob.getD []
      let v := ((b.as_int.toOption.getD 0) % 256).toNat
      .ok (.boolean (!blob.isEmpty && blob.contains v))
  else none

/-- `(blob, char)` cells. -/
def blob_char_cells (op : String) : Option BuiltinFn :=
  if op = "+" then
    some fun a b =>
      let blob := a.rl_blob.getD []
      let c := b.as_char.toOption.getD '\x00'
      .ok (.blob (blob ++ (String.mk [c]).toUTF8.toList.map UInt8.toNat))
  else none

/-- `(map, string)` cells. -/
def map_str_cells (op : String) : Option BuiltinFn :=
  if op = OP_CONTAINS then
    some fun a b =>
      .ok (.boolean ((a.rl_map.getD []).any fun e => e.1 == b.rl_str.getD ""))
  else none

/-- Cells for non-compatible (exclusive vs inclusive) range pairs. -/
def range_mismatch_cells (op : String) : Option BuiltinFn :=
  match op with
  | "!=" => some const_true_fn
  | "==" => some const_false_fn
  | _ => none

/-- `(exclusive range, INT)` cells. -/
def xrange_int_cells (op : String) : Option BuiltinFn :=
  if op = OP_CONTAINS then
    some fun a b =>
      let r := a.rl_xrange.getD (0, 0)
      let v := b.as_int.toOption.getD 0
      .ok (.boolean (decide (r.1 ≤ v) && decide (v < r.2)))
  else none

/-- Same-type exclusive-range cells. -/
def xrange_cells (op : String) : Option BuiltinFn :=
  match op with
  | "==" => some fun a b => .ok (.boolean ((a.rl_xrange.getD (0, 0)) == (b.rl_xrange.getD (0, 0))))
  | "!=" => some fun a b => .ok (.boolean ((a.rl_xrange.getD (0, 0)) != (b.rl_xrange.getD (0, 0))))
  | _ => none

/-- `(inclusive range, INT)` cells. -/
def irange_int_cells (op : String) : Option BuiltinFn :=
  if op = OP_CONTAINS then
    some fun a b =>
      let r := a.rl_irange.getD (0, 0)
      let v := b.as_int.toOption.getD 0
      .ok (.boolean (decide (r.1 ≤ v) && decide (v ≤ r.2)))
  else none

/-- Same-type inclusive-range cells. -/
def irange_cells (op : String) : Option BuiltinFn :=
  match op with
  | "==" => some fun a b => .ok (.boolean ((a.rl_irange.getD (0, 0)) == (b.rl_irange.getD (0, 0))))
  | "!=" => some fun a b => .ok (.boolean ((a.rl_irange.getD (0, 0)) != (b.rl_irange.getD (0, 0))))
  | _ => none

/-- Default comparison cells for operands of different types (also the
synthesized default equality for host-variant operands). -/
def default_cmp_cells (op : String) : Option BuiltinFn :=
  match op with
  | "!=" => some const_true_fn
  | "==" | ">" | ">=" | "<" | "<=" => some const_false_fn
  | _ => none

/-- `get_builtin_binary_op_fn`: the operator dispatch table.  Given the
operator symbol and the two operand values, returns the specialised native
implementation or `none` (fall back to user-registered functions).  The
nested early-returning blocks of the source are flattened into a guard
chain; each guard corresponds to one returning block, whose cells live in
the helper definitions above. -/
def get_builtin_binary_op_fn (op : String) (x y : Dynamic) : Option BuiltinFn :=
  let type1 := x.type_id
  let type2 := y.type_id
  -- Check for common patterns: both operands share one type
  if type1 = type2 ∧ type1 = .tInt then int_cells op
  else if type1 = type2 ∧ type1 = .tBool then bool_cells op
  else if type1 = type2 ∧ type1 = .tStr then str_cells op
  else if type1 = type2 ∧ type1 = .tChar then char_cells op
  else if type1 = type2 ∧ type1 = .tBlob then blob_cells op
  else if type1 = type2 ∧ type1 = .tUnit then unit_cells op
  -- char op string / string op char
  else if type1 = .tChar ∧ type2 = .tStr then char_str_cells op
  else if type1 = .tStr ∧ type2 = .tChar then str_char_cells op
  -- () op string / string op ()
  else if type1 = .tUnit ∧ type2 = .tStr then unit_str_cells op
  else if type1 = .tStr ∧ type2 = .tUnit then str_unit_cells op
  -- blob op int / blob op char
  else if type1 = .tBlob ∧ type2 = .tInt then blob_int_cells op
  else if type1 = .tBlob ∧ type2 = .tChar then blob_char_cells op
  -- map op string
  else if type1 = .tMap ∧ type2 = .tStr then map_str_cells op
  -- non-compatible ranges
  else if (type1 = .tExclusiveRange ∧ type2 = .tInclusiveRange)
      ∨ (type1 = .tInclusiveRange ∧ type2 = .tExclusiveRange) then range_mismatch_cells op
  -- ranges
  else if type1 = .tExclusiveRange ∧ type2 = .tInt then xrange_int_cells op
  else if type1 = .tExclusiveRange ∧ type2 = .tExclusiveRange then xrange_cells op
  else if type1 = .tInclusiveRange ∧ type2 = .tInt then irange_int_cells op
  else if type1 = .tInclusiveRange ∧ type2 = .tInclusiveRange then irange_cells op
  -- one of the operands is a custom type, so it is never built-in
  else if x.is_variant || y.is_variant then
    if is_numeric type1 && is_numeric type2 then
      -- disallow comparisons between different numeric types
      none
    else if type1 ≠ type2 then
      -- if the types are not the same, default to not compare
      default_cmp_cells op
    else
      -- disallow comparisons between the same type
      none
  -- default comparison operators for different types
  else if type2 ≠ type1 then default_cmp_cells op
  -- beyond here, type1 == type2
  else none

theorem is_variant_type_id {x : Dynamic} (h : x.is_variant = true) :
    ∃ v, x.type_id = .tVariant v := by
  cases x <;> simp_all [Dynamic.is_variant, Dynamic.type_id]

/-- Whenever one operand is a host variant, the dispatch falls through every
specialised cell and reaches the variant block. -/
theorem variant_reaches (op : String) (x y : Dynamic)
    (hv : x.is_variant = true ∨ y.is_variant = true) :
    get_builtin_binary_op_fn op x y =
      (if is_numeric x.type_id && is_numeric y.type_id then none
       else if x.type_id ≠ y.type_id then default_cmp_cells op
       else none) := by
  obtain hxv | hyv := hv
  · obtain ⟨v, hx⟩ := is_variant_type_id hxv
    simp only [get_builtin_binary_op_fn]
    simp [hx, hxv]
  · obtain ⟨v, hy⟩ := is_variant_type_id hyv
    simp only [get_builtin_binary_op_fn]
    rcases htx : x.type_id <;> simp [htx, hy, hyv]

/-- C3 (amended): for a binary lookup with at least one opaque host-variant
operand: if both type identities are numeric, the lookup returns `none`
(fall through); otherwise, when the type identities differ, the table
synthesizes default equality (`==` false, `!=` true, orderings false); and
when the identities match it returns `none`. -/
theorem claim_C3 (x y : Dynamic) (hv : x.is_variant = true ∨ y.is_variant = true) :
    (∀ op, is_numeric x.type_id = true → is_numeric y.type_id = true →
      get_builtin_binary_op_fn op x y = none) ∧
    (¬(is_numeric x.type_id = true ∧ is_numeric y.type_id = true) → x.type_id ≠ y.type_id →
      get_builtin_binary_op_fn "==" x y = some const_false_fn ∧
      get_builtin_binary_op_fn "!=" x y = some const_true_fn ∧
      get_builtin_binary_op_fn ">" x y = some const_false_fn ∧
      get_builtin_binary_op_fn ">=" x y = some const_false_fn ∧
      get_builtin_binary_op_fn "<" x y = some const_false_fn ∧
      get_builtin_binary_op_fn "<=" x y = some const_false_fn) ∧
    (∀ op, x.type_id = y.type_id → get_builtin_binary_op_fn op x y = none) ∧
    (∀ a b, const_false_fn a b = Except.ok (.boolean false)) ∧
    (∀ a b, const_true_fn a b = Except.ok (.boolean true)) := by
  refine ⟨?_, ?_, ?_, fun _ _ => rfl, fun _ _ => rfl⟩
  · intro op hnx hny
    rw [variant_reaches op x y hv]
    simp [hnx, hny]
  · intro hn hne
    have hb : (is_numeric x.type_id && is_numeric y.type_id) = false := by
      cases hA : is_numeric x.type_id <;> cases hB : is_numeric y.type_id <;> simp_all
    refine ⟨?_, ?_, ?_, ?_, ?_, ?_⟩ <;>
      · rw [variant_reaches _ x y hv]
        simp [hb, hne, default_cmp_cells]
  · intro op hty
    rw [variant_reaches op x y hv]
    split
    · rfl
    · simp [hty]

/-- C3 counterexample to the claim as stated: `u8` is an opaque host type
whose identity is numeric; against an `INT` operand the identities differ,
yet the table returns `none` instead of synthesized default equality. -/
theorem claim_C3_counterexample :
    (Dynamic.variant .u8).is_variant = true ∧
    (Dynamic.variant .u8).type_id ≠ (Dynamic.int 5).type_id ∧
    get_builtin_binary_op_fn "==" (.variant .u8) (.int 5) = none :=
  ⟨rfl, by decide, rfl⟩

/-- Concrete instantiation of `claim_C3`: a non-numeric host variant against
an integer synthesizes default equality, and a numeric host variant against
an integer falls through. -/
theorem claim_C3_witness :
    get_builtin_binary_op_fn "==" (.variant (.other 0)) (.int 5) = some const_false_fn ∧
    get_builtin_binary_op_fn "!=" (.variant (.other 0)) (.int 5) = some const_true_fn ∧
    get_builtin_binary_op_fn "*" (.variant .u8) (.int 5) = none := by
  have h1 := (claim_C3 (.variant (.other 0)) (.int 5) (Or.inl rfl)).2.1
    (by decide) (by decide)
  have h2 := (claim_C3 (.variant .u8) (.int 5) (Or.inl rfl)).1 "*" (by decide) (by decide)
  exact ⟨h1.1, h1.2.1, h2⟩

/-- The comparison operators and the two-character-array predicates their
mixed char/string cells compute. -/
def cmp_op_table : List (String × (Char × Char → Char × Char → Bool)) :=
  [("==", pair2_eq), ("!=", pair2_ne), (">", pair2_gt), (">=", pair2_ge),
   ("<", pair2_lt), ("<=", pair2_le)]

theorem pad2_congr {s t : String} (h : s.data.take 2 = t.data.take 2) : pad2 s = pad2 t := by
  unfold pad2
  rcases hs : s.data with _ | ⟨a, _ | ⟨b, rest⟩⟩ <;>
    rcases ht : t.data with _ | ⟨a', _ | ⟨b', rest'⟩⟩ <;>
      simp_all

/-- C4: for mixed `(char, string)` and `(string, char)` operands, each of
the six comparison operators compares the first two characters of each side
padded with `'\x00'`; hence the result is independent of every character
past the second. -/
theorem claim_C4 (p : String × (Char × Char → Char × Char → Bool)) (hp : p ∈ cmp_op_table)
    (c : Char) (s : String) :
    get_builtin_binary_op_fn p.1 (.char c) (.str s) = some (char_str_cmp_fn p.2) ∧
    char_str_cmp_fn p.2 (.char c) (.str s) = .ok (.boolean (p.2 (c, '\x00') (pad2 s))) ∧
    get_builtin_binary_op_fn p.1 (.str s) (.char c) = some (str_char_cmp_fn p.2) ∧
    str_char_cmp_fn p.2 (.str s) (.char c) = .ok (.boolean (p.2 (pad2 s) (c, '\x00'))) ∧
    (∀ t : String, s.data.take 2 = t.data.take 2 →
      char_str_cmp_fn p.2 (.char c) (.str s) = char_str_cmp_fn p.2 (.char c) (.str t) ∧
      str_char_cmp_fn p.2 (.str s) (.char c) = str_char_cmp_fn p.2 (.str t) (.char c)) := by
  have hind : ∀ t : String, s.data.take 2 = t.data.take 2 →
      char_str_cmp_fn p.2 (.char c) (.str s) = char_str_cmp_fn p.2 (.char c) (.str t) ∧
      str_char_cmp_fn p.2 (.str s) (.char c) = str_char_cmp_fn p.2 (.str t) (.char c) := by
    intro t ht
    constructor
    · simp only [char_str_cmp_fn, get_s1s2_char_str, Dynamic.rl_str, Option.getD_some,
        pad2_congr ht]
    · simp only [str_char_cmp_fn, get_s1s2_str_char, Dynamic.rl_str, Option.getD_some,
        pad2_congr ht]
  simp only [cmp_op_table, List.mem_cons, List.not_mem_nil, or_false] at hp
  rcases hp with h | h | h | h | h | h <;> subst h <;>
    exact ⟨rfl, rfl, rfl, rfl, hind⟩

/-- Concrete instantiation of `claim_C4`: comparing `"apricot"` and
`"apple"` against a character gives identical results because their first
two characters agree. -/
theorem claim_C4_witness :
    ("==", pair2_eq) ∈ cmp_op_table ∧
    "apricot".data.take 2 = "apple".data.take 2 ∧
    str_char_cmp_fn pair2_eq (.str "apricot") (.char 'a')
      = str_char_cmp_fn pair2_eq (.str "apple") (.char 'a') := by
  have hmem : (("==", pair2_eq) : String × (Char × Char → Char × Char → Bool)) ∈ cmp_op_table :=
    List.Mem.head _
  refine ⟨hmem, by decide, ?_⟩
  exact ((claim_C4 _ hmem 'a' "apricot").2.2.2.2 "apple" (by decide)).2

/-! ## Serialization (`src/serde/serialize.rs`) -/

/-- Abstract serializer output: one constructor per serializer primitive the
`Serialize` implementation invokes (`serialize_unit`, `serialize_bool`,
`serialize_i64`, `serialize_str`, `serialize_u8` elements of a byte
sequence, sequences and string-keyed maps). -/
inductive SerOut where
  | sUnit
  | sBool (b : Bool)
  | sI64 (i : Int)
  | sStr (s : String)
  | sU8 (n : Nat)
  | sSeq (xs : List SerOut)
  | sMap (entries : List (String × SerOut))
deriving Repr

/-- Printable name of a host-variant payload type. -/
def VTid.vtid_name : VTid → String
  | .u8 => "u8"
  | .u16 => "u16"
  | .u32 => "u32"
  | .u64 => "u64"
  | .i8 => "i8"
  | .i16 => "i16"
  | .i32 => "i32"
  | .u128 => "u128"
  | .i128 => "i128"
  | .f32 => "f32"
  | .other _ => "custom"

/-- `Serialize for Dynamic`: primitives as themselves, a char as a
one-character string, arrays as sequences, blobs as byte sequences, maps as
string-keyed maps, a function pointer as its name, timestamps, ranges and
host variants as a type-name string tag, and a `shared` cell transparently
as the wrapped value. -/
def serialize : Dynamic → SerOut
  | .unit => .sUnit
  | .boolean b => .sBool b
  | .str s => .sStr s
  | .char c => .sStr (String.mk [c])
  | .int i => .sI64 i
  | .blob bs => .sSeq (bs.map SerOut.sU8)
  | .array xs => .sSeq (xs.attach.map fun ⟨e, he⟩ => serialize e)
  | .map m => .sMap (m.attach.map fun ⟨⟨k, v⟩, hm⟩ => (k, serialize v))
  | .fnPtr name => .sStr name
  | .timestamp _ => .sStr "timestamp"
  | .exclusiveRange _ _ => .sStr "range"
  | .inclusiveRange _ _ => .sStr "range="
  | .variant t => .sStr t.vtid_name
  | .shared d => serialize d
termination_by d => sizeOf d
decreasing_by
  all_goals simp_wf
  all_goals try omega
  all_goals first
    | (have h := List.sizeOf_lt_of_mem he; omega)
    | (have h := List.sizeOf_lt_of_mem hm; simp at h; omega)

/-- C10: serializing a `shared` cell produces exactly the serializer output
of the wrapped value; the wrapper never appears in the wire format. -/
theorem claim_C10 (d : Dynamic) : serialize (.shared d) = serialize d := by
  simp [serialize]

/-! ## Expression evaluation (`src/eval/expr.rs`) -/

/-- A resolved entry of the function-resolution cache
(`FnResolutionCacheEntry`): the callable plus an optional source-module
identity. -/
structure FnResolutionCacheEntry where
  func : BuiltinFn
  source : Option String

/-- The function-resolution cache: call-site hash to either a resolved
entry (`some`) or the negative marker (`none`); modelled as an association
list with most recent insertion first. -/
abbrev FnResCache := List (Nat × Option FnResolutionCacheEntry)

/-- Mutable per-evaluation state threaded through expression evaluation:
the operation counter (`GlobalRuntimeState::num_operations`) and the
function-resolution cache (`Caches`). -/
structure St where
  numOps : Nat
  cache : FnResCache

/-- The expression AST fragment evaluated by `eval_expr`.  `varRef` carries
the two optional reverse-index slots of `Expr::Variable` (the one inside the
boxed payload and the inline one) and `fnCall` carries the fields of
`FnCallExpr` used on the native-operator fast path. -/
inductive Expr where
  | dynConst (d : Dynamic) (pos : Pos)
  | intConst (i : Int) (pos : Pos)
  | strConst (s : String) (pos : Pos)
  | charConst (c : Char) (pos : Pos)
  | boolConst (b : Bool) (pos : Pos)
  | unitConst (pos : Pos)
  | varRef (v0 : Option Nat) (name : String) (idx : Option Nat) (pos : Pos)
  | fnCall (name : String) (hashNative : Nat) (isNativeOp : Bool) (args : List Expr) (pos : Pos)
  | andE (lhs rhs : Expr) (pos : Pos)
  | orE (lhs rhs : Expr) (pos : Pos)
  | coalesceE (lhs rhs : Expr) (pos : Pos)
  | arrayLit (items : List Expr) (pos : Pos)

/-- Source position of an expression. -/
def Expr.pos : Expr → Pos
  | .dynConst _ p => p
  | .intConst _ p => p
  | .strConst _ p => p
  | .charConst _ p => p
  | .boolConst _ p => p
  | .unitConst p => p
  | .varRef _ _ _ p => p
  | .fnCall _ _ _ _ p => p
  | .andE _ _ p => p
  | .orE _ _ p => p
  | .coalesceE _ _ p => p
  | .arrayLit _ p => p

/-- The engine together with the read-only parts of the evaluation context:
configuration flags and limits, the optional variable resolver, the
script-function library names, the global modules, the scope and receiver,
and the external collaborators of the core (the general function-resolution
path, the return-value checker, hashing and signature construction), which
are not under the verified sources and enter as opaque parameters. -/
structure Engine where
  fast_operators : Bool
  max_operations : Nat
  max_array_size : Nat
  max_map_size : Nat
  max_string_size : Nat
  resolve_var : Option (String → Nat → Except ERR (Option Dynamic))
  lib_script_fns : List String
  global_modules : List (List (String × Dynamic))
  always_search_scope : Bool
  this_ptr : Option Dynamic
  scope : List (String × Dynamic)
  exec_fn_call : String → List Dynamic → Except ERR Dynamic
  make_function_call : String → List Expr → Except ERR Dynamic
  check_return_value : Except ERR Dynamic → Pos → Except ERR Dynamic
  calc_fn_params_hash : List TypeId → Nat
  combine_hashes : Nat → Nat → Nat
  gen_fn_call_signature : String → List Dynamic → String

/-- Modelled from the spec: the per-evaluation operation counter
(`Engine::inc_operations`, not under the verified sources): every call
increments the counter, and once it exceeds the configured ceiling
(`max_operations`, `0` meaning unlimited) evaluation halts with
`TooManyOperations` at the current position. -/
def inc_operations (E : Engine) (numOps : Nat) (pos : Pos) : Option ERR × Nat :=
  let n := numOps + 1
  if 0 < E.max_operations ∧ E.max_operations < n then
    (some (.errTooManyOperations pos), n)
  else
    (none, n)

/-- Modelled from the spec: `Scope::get_index` (the `Scope` type is not
under the verified sources): search the scope by name, the highest index
with a matching name wins (shadowing). -/
def scope_get_index (scope : List (String × Dynamic)) (name : String) : Option Nat :=
  match scope with
  | [] => none
  | e :: rest =>
    match scope_get_index rest name with
    | some i => some (i + 1)
    | none => if e.1 = name then some 0 else none

/-- `search_scope_only`: resolve an unqualified variable reference.  Mirrors
the source: the `this` check; the always-search override; the inline index;
the script-function name check (early return of a function pointer); the
boxed index; then the variable resolver, the direct reverse-index access or
the name search, the global modules, and `VariableNotFound`.
`Scope::get_index`, `Scope::get_mut_by_index` (total here via a unit
default) and `Module::get_var` are modelled from the spec. -/
def search_scope_only (E : Engine) (scope : List (String × Dynamic))
    (v0 : Option Nat) (name : String) (idx : Option Nat) (pos : Pos) :
    Except ERR (Dynamic × Pos) :=
  -- the variable is `this`
  if idx = none ∧ v0 = none ∧ name = "this" then
    match E.this_ptr with
    | some d => .ok (d, pos)
    | none => .error (.errUnboundThis pos)
  else
    let rest : Nat → Pos → Except ERR (Dynamic × Pos) := fun index var_pos =>
      -- check the variable resolver, if any
      let resolved : Option (Except ERR (Dynamic × Pos)) :=
        match E.resolve_var with
        | none => none
        | some f =>
          match f name index with
          | .ok (some d) => some (.ok (d, var_pos))
          | .ok none => none
          | .error e => some (.error (e.fill_position var_pos))
      match resolved with
      | some r => r
      | none =>
        if 0 < index then
          .ok ((scope.getD (scope.length - index) ("", .unit)).2, var_pos)
        else
          -- find the variable in the scope
          match scope_get_index scope name with
          | some i => .ok ((scope.getD i ("", .unit)).2, var_pos)
          | none =>
            match E.global_modules.findSome? fun m => m.lookup name with
            | some val => .ok (val, var_pos)
            | none => .error (.errVariableNotFound name var_pos)
    if E.always_search_scope then rest 0 pos
    else
      match idx with
      | some i => rest i pos
      | none =>
        -- scripted function with the same name
        if E.lib_script_fns.contains name then .ok (.fnPtr name, pos)
        else rest (v0.getD 0) pos

/-- The native-operator fast path of `eval_fn_call_expr` after argument
evaluation (source lines 249-302): hash the call site with the operand
types, then dispatch on the resolution-cache entry: vacant consults the
dispatch table (binary calls only) and inserts on a hit or falls through to
`exec_fn_call` on a miss; an occupied resolved entry is invoked directly;
an occupied negative marker fails with `FunctionNotFound` carrying the
constructed signature. -/
def eval_fn_call_fast (E : Engine) (name : String) (hashNative : Nat) (pos : Pos)
    (lhs rhs : Dynamic) (arity : Nat) (s : St) : Except ERR Dynamic × St :=
  let operands : List Dynamic := if arity = 2 then [lhs, rhs] else [lhs]
  let hash := E.combine_hashes hashNative (E.calc_fn_params_hash (operands.map Dynamic.type_id))
  match s.cache.lookup hash with
  | none =>
    -- vacant entry
    let func := if arity = 2 then get_builtin_binary_op_fn name lhs rhs else none
    match func with
    | some f =>
      let s' : St := { s with cache := (hash, some ⟨f, none⟩) :: s.cache }
      (E.check_return_value (f lhs rhs) pos, s')
    | none => (E.exec_fn_call name operands, s)
  | some none =>
    -- occupied negative marker
    (.error (.errFunctionNotFound (E.gen_fn_call_signature name operands) pos), s)
  | some (some entry) =>
    -- occupied resolved entry
    (E.check_return_value (entry.func lhs rhs) pos, s)

/-- Modelled from the spec: cumulative data sizes of a value — array
element count, map entry count and string bytes, summed across nested
elements (`Engine::calc_data_sizes`, not under the verified sources; the
spec does not assign blobs a size). -/
def calc_data_sizes : Dynamic → Nat × Nat × Nat
  | .str s => (0, 0, s.utf8ByteSize)
  | .array xs =>
    let parts := xs.attach.map fun ⟨e, he⟩ => calc_data_sizes e
    (xs.length + (parts.map (·.1)).sum, (parts.map (·.2.1)).sum, (parts.map (·.2.2)).sum)
  | .map m =>
    let parts := m.attach.map fun ⟨⟨k, v⟩, hm⟩ => calc_data_sizes v
    ((parts.map (·.1)).sum, m.length + (parts.map (·.2.1)).sum, (parts.map (·.2.2)).sum)
  | .shared d => calc_data_sizes d
  | _ => (0, 0, 0)
termination_by d => sizeOf d
decreasing_by
  all_goals simp_wf
  all_goals try omega
  all_goals first
    | (have h := List.sizeOf_lt_of_mem he; omega)
    | (have h := List.sizeOf_lt_of_mem hm; simp at h; omega)

/-- Is any data-size limit configured? -/
def Engine.has_data_size_limit (E : Engine) : Bool :=
  decide (0 < E.max_array_size) || decide (0 < E.max_map_size) || decide (0 < E.max_string_size)

/-- Modelled from the spec: raise `DataTooLarge` at the given position when
a cumulative size exceeds its configured limit
(`Engine::raise_err_if_over_data_size_limit`, not under the verified
sources). -/
def raise_err_if_over_data_size_limit (E : Engine) (sizes : Nat × Nat × Nat) (pos : Pos) :
    Option ERR :=
  if (0 < E.max_array_size ∧ E.max_array_size < sizes.1)
      ∨ (0 < E.max_map_size ∧ E.max_map_size < sizes.2.1)
      ∨ (0 < E.max_string_size ∧ E.max_string_size < sizes.2.2) then
    some (.errDataTooLarge pos)
  else none

mutual

/-- `eval_expr`: evaluate one expression.  Every visit first goes through
the operation counter; function calls and variable accesses are the lifted
branches of the source; the remaining kinds follow the main `match`. -/
def evalExpr (E : Engine) (e : Expr) (s : St) : Except ERR Dynamic × St :=
  match inc_operations E s.numOps e.pos with
  | (some err, n) => (.error err, { s with numOps := n })
  | (none, n) =>
    let s := { s with numOps := n }
    match e with
    | .dynConst d _ => (.ok d, s)
    | .intConst i _ => (.ok (.int i), s)
    | .strConst v _ => (.ok (.str v), s)
    | .charConst c _ => (.ok (.char c), s)
    | .boolConst b _ => (.ok (.boolean b), s)
    | .unitConst _ => (.ok .unit, s)
    | .varRef v0 name idx pos =>
      if idx = none ∧ v0 = none ∧ name = "this" then
        match E.this_ptr with
        | some d => (.ok d, s)
        | none => (.error (.errUnboundThis pos), s)
      else
        match search_scope_only E E.scope v0 name idx pos with
        | .ok (d, _) => (.ok d, s)
        | .error err => (.error err, s)
    | .fnCall name hashNative isNativeOp args pos =>
      -- short-circuit native binary operator call under fast-operators mode
      if isNativeOp && E.fast_operators && (args.length == 1 || args.length == 2) then
        match args with
        | [a1] =>
          match evalExpr E a1 s with
          | (.error err, s1) => (.error err, s1)
          | (.ok v1, s1) => eval_fn_call_fast E name hashNative pos v1.flatten .unit 1 s1
        | [a1, a2] =>
          match evalExpr E a1 s with
          | (.error err, s1) => (.error err, s1)
          | (.ok v1, s1) =>
            match evalExpr E a2 s1 with
            | (.error err, s2) => (.error err, s2)
            | (.ok v2, s2) => eval_fn_call_fast E name hashNative pos v1.flatten v2.flatten 2 s2
        | _ => (E.make_function_call name args, s)
      else
        -- normal function call (general path, external collaborator)
        (E.make_function_call name args, s)
    | .andE lhs rhs _ =>
      match evalExpr E lhs s with
      | (.error err, s1) => (.error err, s1)
      | (.ok v, s1) =>
        match v.as_bool with
        | .error typ => (.error (.errTypeMismatch "bool" typ lhs.pos), s1)
        | .ok false => (.ok (.boolean false), s1)
        | .ok true =>
          match evalExpr E rhs s1 with
          | (.error err, s2) => (.error err, s2)
          | (.ok v2, s2) =>
            match v2.as_bool with
            | .error typ => (.error (.errTypeMismatch "bool" typ rhs.pos), s2)
            | .ok b => (.ok (.boolean b), s2)
    | .orE lhs rhs _ =>
      match evalExpr E lhs s with
      | (.error err, s1) => (.error err, s1)
      | (.ok v, s1) =>
        match v.as_bool with
        | .error typ => (.error (.errTypeMismatch "bool" typ lhs.pos), s1)
        | .ok true => (.ok (.boolean true), s1)
        | .ok false =>
          match evalExpr E rhs s1 with
          | (.error err, s2) => (.error err, s2)
          | (.ok v2, s2) =>
            match v2.as_bool with
            | .error typ => (.error (.errTypeMismatch "bool" typ rhs.pos), s2)
            | .ok b => (.ok (.boolean b), s2)
    | .coalesceE lhs rhs _ =>
      match evalExpr E lhs s with
      | (.ok v, s1) =>
        if v.type_id = .tUnit then evalExpr E rhs s1 else (.ok v, s1)
      | (.error err, s1) => (.error err, s1)
    | .arrayLit items _ =>
      match evalArrayItems E items [] (0, 0, 0) s with
      | (.ok xs, s1) => (.ok (.array xs), s1)
      | (.error err, s1) => (.error err, s1)
termination_by sizeOf e

/-- The element loop of the array-literal branch: evaluate elements left to
right, flatten and push each, accumulate the data sizes and (when a limit
is configured) check them after each push; the first error stops the
loop. -/
def evalArrayItems (E : Engine) (items : List Expr) (acc : List Dynamic)
    (sizes : Nat × Nat × Nat) (s : St) : Except ERR (List Dynamic) × St :=
  match items with
  | [] => (.ok acc, s)
  | item :: restItems =>
    match evalExpr E item s with
    | (.error err, s1) => (.error err, s1)
    | (.ok v, s1) =>
      let value := v.flatten
      let val_sizes := calc_data_sizes value
      let acc1 := acc ++ [value]
      if E.has_data_size_limit then
        let sizes1 := (sizes.1 + val_sizes.1, sizes.2.1 + val_sizes.2.1, sizes.2.2 + val_sizes.2.2)
        match raise_err_if_over_data_size_limit E sizes1 item.pos with
        | some err => (.error err, s1)
        | none => evalArrayItems E restItems acc1 sizes1 s1
      else
        evalArrayItems E restItems acc1 sizes s1
termination_by sizeOf items

end

/-- A concrete engine configuration used to instantiate the theorems:
fast operators on, no limits, no resolver, trivial collaborators. -/
def baseEngine : Engine where
  fast_operators := true
  max_operations := 0
  max_array_size := 0
  max_map_size := 0
  max_string_size := 0
  resolve_var := none
  lib_script_fns := []
  global_modules := []
  always_search_scope := false
  this_ptr := none
  scope := []
  exec_fn_call := fun _ _ => .ok .unit
  make_function_call := fun _ _ => .ok .unit
  check_return_value := fun r _ => r
  calc_fn_params_hash := fun ts => ts.length
  combine_hashes := fun a b => a + b
  gen_fn_call_signature := fun n _ => n

/-- C5: for `&&`, the left operand is evaluated and coerced to bool — a
non-bool left yields `TypeMismatch` at the left operand's position; a false
left returns false with the right operand universally quantified and absent
from the result (never evaluated); symmetrically a true left of `||`
returns true without the right operand ever being evaluated. -/
theorem claim_C5 (E : Engine) (l r : Expr) (p : Pos) (s : St) (n : Nat)
    (hinc : inc_operations E s.numOps p = (none, n)) :
    (∀ v s2 typ, evalExpr E l { s with numOps := n } = (.ok v, s2) →
      v.as_bool = .error typ →
      evalExpr E (.andE l r p) s = (.error (.errTypeMismatch "bool" typ l.pos), s2)) ∧
    (∀ v s2, evalExpr E l { s with numOps := n } = (.ok v, s2) →
      v.as_bool = .ok false →
      evalExpr E (.andE l r p) s = (.ok (.boolean false), s2)) ∧
    (∀ v s2 typ, evalExpr E l { s with numOps := n } = (.ok v, s2) →
      v.as_bool = .error typ →
      evalExpr E (.orE l r p) s = (.error (.errTypeMismatch "bool" typ l.pos), s2)) ∧
    (∀ v s2, evalExpr E l { s with numOps := n } = (.ok v, s2) →
      v.as_bool = .ok true →
      evalExpr E (.orE l r p) s = (.ok (.boolean true), s2)) := by
  refine ⟨?_, ?_, ?_, ?_⟩
  · intro v s2 typ hok htyp
    rw [evalExpr.eq_1]
    simp only [Expr.pos] at hinc ⊢
    rw [hinc]
    dsimp only
    rw [hok]
    dsimp only
    rw [htyp]
  · intro v s2 hok hb
    rw [evalExpr.eq_1]
    simp only [Expr.pos] at hinc ⊢
    rw [hinc]
    dsimp only
    rw [hok]
    dsimp only
    rw [hb]
  · intro v s2 typ hok htyp
    rw [evalExpr.eq_1]
    simp only [Expr.pos] at hinc ⊢
    rw [hinc]
    dsimp only
    rw [hok]
    dsimp only
    rw [htyp]
  · intro v s2 hok hb
    rw [evalExpr.eq_1]
    simp only [Expr.pos] at hinc ⊢
    rw [hinc]
    dsimp only
    rw [hok]
    dsimp only
    rw [hb]

/-- Concrete instantiation of `claim_C5`: `false && X` and `true || X` with
`X` a known-failing variable reference evaluate without touching `X`. -/
theorem claim_C5_witness :
    evalExpr baseEngine (.andE (.boolConst false 1) (.varRef none "zzz" none 2) 0) ⟨0, []⟩
      = (.ok (.boolean false), ⟨2, []⟩) ∧
    evalExpr baseEngine (.orE (.boolConst true 1) (.varRef none "zzz" none 2) 0) ⟨0, []⟩
      = (.ok (.boolean true), ⟨2, []⟩) := by
  constructor
  · exact (claim_C5 baseEngine (.boolConst false 1) (.varRef none "zzz" none 2) 0 ⟨0, []⟩ 1
      rfl).2.1 (.boolean false) ⟨2, []⟩
      (by simp [evalExpr, inc_operations, baseEngine]) rfl
  · exact (claim_C5 baseEngine (.boolConst true 1) (.varRef none "zzz" none 2) 0 ⟨0, []⟩ 1
      rfl).2.2.2 (.boolean true) ⟨2, []⟩
      (by simp [evalExpr, inc_operations, baseEngine]) rfl

/-- C6: for `??`, the left operand is evaluated first; a successful unit
left hands the entire result (value or error) of the right operand back; a
successful non-unit left is returned with the right operand universally
quantified and absent from the result; an error of the left is returned
likewise. -/
theorem claim_C6 (E : Engine) (l r : Expr) (p : Pos) (s : St) (n : Nat)
    (hinc : inc_operations E s.numOps p = (none, n)) :
    (∀ v s2, evalExpr E l { s with numOps := n } = (.ok v, s2) →
      v.type_id = .tUnit →
      evalExpr E (.coalesceE l r p) s = evalExpr E r s2) ∧
    (∀ v s2, evalExpr E l { s with numOps := n } = (.ok v, s2) →
      v.type_id ≠ .tUnit →
      evalExpr E (.coalesceE l r p) s = (.ok v, s2)) ∧
    (∀ err s2, evalExpr E l { s with numOps := n } = (.error err, s2) →
      evalExpr E (.coalesceE l r p) s = (.error err, s2)) := by
  refine ⟨?_, ?_, ?_⟩
  · intro v s2 hok hu
    rw [evalExpr.eq_1]
    simp only [Expr.pos] at hinc ⊢
    rw [hinc]
    dsimp only
    rw [hok]
    dsimp only
    rw [if_pos hu]
  · intro v s2 hok hu
    rw [evalExpr.eq_1]
    simp only [Expr.pos] at hinc ⊢
    rw [hinc]
    dsimp only
    rw [hok]
    dsimp only
    rw [if_neg hu]
  · intro err s2 herr
    rw [evalExpr.eq_1]
    simp only [Expr.pos] at hinc ⊢
    rw [hinc]
    dsimp only
    rw [herr]

/-- Concrete instantiation of `claim_C6`: `() ?? 99` evaluates the right
operand, `0 ?? X` returns the left value with `X` untouched (even failing),
and an error of the left is passed through. -/
theorem claim_C6_witness :
    evalExpr baseEngine (.coalesceE (.unitConst 1) (.intConst 99 2) 0) ⟨0, []⟩
      = evalExpr baseEngine (.intConst 99 2) ⟨2, []⟩ ∧
    evalExpr baseEngine (.coalesceE (.intConst 0 1) (.varRef none "zzz" none 2) 0) ⟨0, []⟩
      = (.ok (.int 0), ⟨2, []⟩) ∧
    evalExpr baseEngine
        (.coalesceE (.varRef none "zzz" none 1) (.intConst 99 2) 0) ⟨0, []⟩
      = (.error (.errVariableNotFound "zzz" 1), ⟨2, []⟩) := by
  refine ⟨?_, ?_, ?_⟩
  · exact (claim_C6 baseEngine (.unitConst 1) (.intConst 99 2) 0 ⟨0, []⟩ 1 rfl).1
      .unit ⟨2, []⟩ (by simp [evalExpr, inc_operations, baseEngine]) rfl
  · exact (claim_C6 baseEngine (.intConst 0 1) (.varRef none "zzz" none 2) 0 ⟨0, []⟩ 1 rfl).2.1
      (.int 0) ⟨2, []⟩ (by simp [evalExpr, inc_operations, baseEngine]) (by decide)
  · exact (claim_C6 baseEngine (.varRef none "zzz" none 1) (.intConst 99 2) 0 ⟨0, []⟩ 1 rfl).2.2
      (.errVariableNotFound "zzz" 1) ⟨2, []⟩
      (by simp [evalExpr, inc_operations, baseEngine, search_scope_only, scope_get_index])

/-- The user-installed variable resolver (if any) does not handle the given
name at the given index hint. -/
def resolver_declines (E : Engine) (name : String) (i : Nat) : Prop :=
  match E.resolve_var with
  | none => True
  | some f => f name i = .ok none

theorem scope_get_index_none {scope : List (String × Dynamic)} {name : String}
    (h : scope_get_index scope name = none) :
    ∀ j, j < scope.length → (scope.getD j ("", .unit)).1 ≠ name := by
  induction scope with
  | nil => intro j hj; simp at hj
  | cons e rest ih =>
    intro j hj
    simp only [scope_get_index] at h
    cases hr : scope_get_index rest name with
    | some k => rw [hr] at h; cases h
    | none =>
      rw [hr] at h
      by_cases he : e.1 = name
      · rw [if_pos he] at h; cases h
      · rw [if_neg he] at h
        cases j with
        | zero => simpa using he
        | succ jj =>
          simp only [List.getD_cons_succ]
          exact ih hr jj (by simp at hj; omega)

theorem scope_get_index_spec {scope : List (String × Dynamic)} {name : String} {i : Nat}
    (h : scope_get_index scope name = some i) :
    i < scope.length ∧ (scope.getD i ("", .unit)).1 = name ∧
      ∀ j, i < j → j < scope.length → (scope.getD j ("", .unit)).1 ≠ name := by
  induction scope generalizing i with
  | nil => simp [scope_get_index] at h
  | cons e rest ih =>
    simp only [scope_get_index] at h
    cases hr : scope_get_index rest name with
    | some k =>
      rw [hr] at h
      injection h with h
      subst h
      obtain ⟨h1, h2, h3⟩ := ih hr
      refine ⟨by simp; omega, by simpa using h2, ?_⟩
      intro j hj hjl
      cases j with
      | zero => omega
      | succ jj =>
        simp only [List.getD_cons_succ]
        exact h3 jj (by omega) (by simp at hjl; omega)
    | none =>
      rw [hr] at h
      by_cases he : e.1 = name
      · rw [if_pos he] at h
        injection h with h
        subst h
        refine ⟨by simp, by simpa using he, ?_⟩
        intro j hj hjl
        cases j with
        | zero => omega
        | succ jj =>
          simp only [List.getD_cons_succ]
          exact scope_get_index_none hr jj (by simp at hjl; omega)
      · rw [if_neg he] at h; cases h

/-- C2 (amended): resolving an unqualified variable reference that is not
`this`: any user-installed variable resolver is consulted first, with the
reverse-index as its hint; only when it declines does the precomputed
reverse-index (with 'always search scope' off) bind directly at scope index
`len(scope) - reverse_index`; a bare name matching a script function
returns a function pointer; otherwise the scope is searched by name with
the highest-index match winning, then the registered global modules, and
finally `VariableNotFound`; 'always search scope' forces the name
search. -/
theorem claim_C2 (E : Engine) (scope : List (String × Dynamic)) (v0 : Option Nat)
    (name : String) (idx : Option Nat) (pos : Pos) :
    (∀ i f d, E.always_search_scope = false → idx = some i →
      E.resolve_var = some f → f name i = .ok (some d) →
      search_scope_only E scope v0 name idx pos = .ok (d, pos)) ∧
    (∀ i, E.always_search_scope = false → idx = some i → 0 < i →
      resolver_declines E name i →
      search_scope_only E scope v0 name idx pos
        = .ok ((scope.getD (scope.length - i) ("", .unit)).2, pos)) ∧
    (E.always_search_scope = false → idx = none → v0 = none → name ≠ "this" →
      E.lib_script_fns.contains name = false → resolver_declines E name 0 →
      (∀ i, scope_get_index scope name = some i →
        search_scope_only E scope v0 name idx pos
          = .ok ((scope.getD i ("", .unit)).2, pos)) ∧
      (∀ val, scope_get_index scope name = none →
        E.global_modules.findSome? (fun m => m.lookup name) = some val →
        search_scope_only E scope v0 name idx pos = .ok (val, pos)) ∧
      (scope_get_index scope name = none →
        E.global_modules.findSome? (fun m => m.lookup name) = none →
        search_scope_only E scope v0 name idx pos
          = .error (.errVariableNotFound name pos))) ∧
    (∀ i, scope_get_index scope name = some i →
      i < scope.length ∧ (scope.getD i ("", .unit)).1 = name ∧
      ∀ j, i < j → j < scope.length → (scope.getD j ("", .unit)).1 ≠ name) ∧
    (E.always_search_scope = false → idx = none → name ≠ "this" →
      E.lib_script_fns.contains name = true →
      search_scope_only E scope v0 name idx pos = .ok (.fnPtr name, pos)) ∧
    (E.always_search_scope = true → ¬(idx = none ∧ v0 = none ∧ name = "this") →
      resolver_declines E name 0 →
      ∀ i, scope_get_index scope name = some i →
      search_scope_only E scope v0 name idx pos
        = .ok ((scope.getD i ("", .unit)).2, pos)) := by
  refine ⟨?_, ?_, ?_, fun i h => scope_get_index_spec h, ?_, ?_⟩
  · intro i f d halways hidx hres hf
    subst hidx
    simp only [search_scope_only, halways, hres, hf]
    simp
  · intro i halways hidx hipos hdecl
    subst hidx
    simp only [resolver_declines] at hdecl
    simp only [search_scope_only, halways]
    simp only [reduceCtorEq, false_and, if_false, Bool.false_eq_true, if_neg]
    cases hres : E.resolve_var with
    | none => simp [hres, hipos]
    | some f =>
      rw [hres] at hdecl
      simp [hres, hdecl, hipos]
  · intro halways hidx hv0 hthis hlib hdecl
    subst hidx
    subst hv0
    simp only [resolver_declines] at hdecl
    refine ⟨?_, ?_, ?_⟩
    · intro i hsgi
      simp only [search_scope_only, halways, hthis, hlib]
      cases hres : E.resolve_var with
      | none => simp [hres, hsgi, hthis]
      | some f =>
        rw [hres] at hdecl
        simp [hres, hdecl, hsgi, hthis]
    · intro val hsgi hmod
      simp only [search_scope_only, halways, hthis, hlib]
      cases hres : E.resolve_var with
      | none => simp [hres, hsgi, hmod, hthis]
      | some f =>
        rw [hres] at hdecl
        simp [hres, hdecl, hsgi, hmod, hthis]
    · intro hsgi hmod
      simp only [search_scope_only, halways, hthis, hlib]
      cases hres : E.resolve_var with
      | none => simp [hres, hsgi, hmod, hthis]
      | some f =>
        rw [hres] at hdecl
        simp [hres, hdecl, hsgi, hmod, hthis]
  · intro halways hidx hthis hlib
    subst hidx
    simp only [search_scope_only, halways, hlib]
    simp [hthis]
  · intro halways hnotthis hdecl i hsgi
    simp only [resolver_declines] at hdecl
    simp only [search_scope_only, halways]
    rw [if_neg hnotthis]
    cases hres : E.resolve_var with
    | none => simp [hres, hsgi]
    | some f =>
      rw [hres] at hdecl
      simp [hres, hdecl, hsgi]

/-- An engine whose variable resolver always produces the value 99. -/
def resolverEngine : Engine :=
  { baseEngine with resolve_var := some fun _ _ => .ok (some (.int 99)) }

/-- C2 counterexample to the claim as stated: with a precomputed
reverse-index present and 'always search scope' off, the claim requires the
scope binding (here `1`) to be used directly, before any resolver; the code
consults the installed resolver first and returns its value `99`. -/
theorem claim_C2_counterexample :
    search_scope_only resolverEngine [("x", Dynamic.int 1)] none "x" (some 1) 5
      = .ok (.int 99, 5) ∧
    search_scope_only resolverEngine [("x", Dynamic.int 1)] none "x" (some 1) 5
      ≠ .ok ((([("x", Dynamic.int 1)] : List (String × Dynamic)).getD
          (1 - 1) ("", .unit)).2, 5) := by
  refine ⟨rfl, ?_⟩
  intro h
  rw [show search_scope_only resolverEngine [("x", Dynamic.int 1)] none "x" (some 1) 5
      = .ok (.int 99, 5) from rfl] at h
  simp [List.getD] at h

/-- Concrete instantiation of `claim_C2`: the direct reverse-index access
picks the top binding of a two-entry scope, and the name search picks the
highest-index match. -/
theorem claim_C2_witness :
    search_scope_only baseEngine [("x", Dynamic.int 7), ("x", Dynamic.int 9)]
        none "x" (some 1) 3 = .ok (.int 9, 3) ∧
    search_scope_only baseEngine [("x", Dynamic.int 7), ("x", Dynamic.int 9)]
        none "x" none 3 = .ok (.int 9, 3) := by
  constructor
  · exact (claim_C2 baseEngine [("x", Dynamic.int 7), ("x", Dynamic.int 9)]
      none "x" (some 1) 3).2.1 1 rfl rfl (by decide) trivial
  · exact ((claim_C2 baseEngine [("x", Dynamic.int 7), ("x", Dynamic.int 9)]
      none "x" none 3).2.2.1 rfl rfl rfl (by decide) rfl trivial).1 1 rfl

/-- The combined call-site/argument-types hash of the fast operator path. -/
def op_call_hash (E : Engine) (hashNative : Nat) (operands : List Dynamic) : Nat :=
  E.combine_hashes hashNative (E.calc_fn_params_hash (operands.map Dynamic.type_id))

/-- C1: on the fast-operator path of a native operator call of arity 1 or
2: a vacant cache entry consults the dispatch table — a hit inserts the
resolved entry and calls it, a miss (always, for arity 1) falls through to
the general function-resolution path leaving the cache untouched; an
occupied resolved entry is invoked directly; an occupied negative marker
fails with `FunctionNotFound` carrying the constructed signature; and in
fast-operators mode a binary native-operator call expression dispatches
through this path on the flattened argument values. -/
theorem claim_C1 (E : Engine) (name : String) (hashNative : Nat) (pos : Pos)
    (lhs rhs : Dynamic) (s : St) :
    (∀ f, s.cache.lookup (op_call_hash E hashNative [lhs, rhs]) = none →
      get_builtin_binary_op_fn name lhs rhs = some f →
      eval_fn_call_fast E name hashNative pos lhs rhs 2 s
        = (E.check_return_value (f lhs rhs) pos,
           { s with cache :=
              (op_call_hash E hashNative [lhs, rhs], some ⟨f, none⟩) :: s.cache })) ∧
    (s.cache.lookup (op_call_hash E hashNative [lhs, rhs]) = none →
      get_builtin_binary_op_fn name lhs rhs = none →
      eval_fn_call_fast E name hashNative pos lhs rhs 2 s
        = (E.exec_fn_call name [lhs, rhs], s)) ∧
    (s.cache.lookup (op_call_hash E hashNative [lhs]) = none →
      eval_fn_call_fast E name hashNative pos lhs .unit 1 s
        = (E.exec_fn_call name [lhs], s)) ∧
    (∀ entry arity operands,
      ((arity = 2 ∧ operands = [lhs, rhs]) ∨ (arity = 1 ∧ operands = [lhs])) →
      s.cache.lookup (op_call_hash E hashNative operands) = some (some entry) →
      eval_fn_call_fast E name hashNative pos lhs rhs arity s
        = (E.check_return_value (entry.func lhs rhs) pos, s)) ∧
    (∀ arity operands,
      ((arity = 2 ∧ operands = [lhs, rhs]) ∨ (arity = 1 ∧ operands = [lhs])) →
      s.cache.lookup (op_call_hash E hashNative operands) = some none →
      eval_fn_call_fast E name hashNative pos lhs rhs arity s
        = (.error (.errFunctionNotFound (E.gen_fn_call_signature name operands) pos), s)) ∧
    (∀ a1 a2 n v1 s1 v2 s2, E.fast_operators = true →
      inc_operations E s.numOps pos = (none, n) →
      evalExpr E a1 { s with numOps := n } = (.ok v1, s1) →
      evalExpr E a2 s1 = (.ok v2, s2) →
      evalExpr E (.fnCall name hashNative true [a1, a2] pos) s
        = eval_fn_call_fast E name hashNative pos v1.flatten v2.flatten 2 s2) := by
  refine ⟨?_, ?_, ?_, ?_, ?_, ?_⟩
  · intro f hvac hhit
    simp only [eval_fn_call_fast, op_call_hash, if_true, reduceIte, List.map_cons, List.map_nil] at hvac ⊢
    rw [hvac]
    dsimp only
    rw [hhit]
  · intro hvac hmiss
    simp only [eval_fn_call_fast, op_call_hash, if_true, reduceIte, List.map_cons, List.map_nil] at hvac ⊢
    rw [hvac]
    dsimp only
    rw [hmiss]
  · intro hvac
    simp only [eval_fn_call_fast, op_call_hash, List.map_cons, List.map_nil] at hvac ⊢
    norm_num
    rw [hvac]
  · intro entry arity operands hca hocc
    obtain ⟨ha, hops⟩ | ⟨ha, hops⟩ := hca <;> subst ha <;> subst hops <;>
      · simp only [eval_fn_call_fast, op_call_hash, if_true, reduceIte, List.map_cons, List.map_nil] at hocc ⊢
        norm_num at hocc ⊢
        rw [hocc]
  · intro arity operands hca hocc
    obtain ⟨ha, hops⟩ | ⟨ha, hops⟩ := hca <;> subst ha <;> subst hops <;>
      · simp only [eval_fn_call_fast, op_call_hash, if_true, reduceIte, List.map_cons, List.map_nil] at hocc ⊢
        norm_num at hocc ⊢
        rw [hocc]
  · intro a1 a2 n v1 s1 v2 s2 hfast hinc h1 h2
    rw [evalExpr.eq_1]
    simp only [Expr.pos] at hinc ⊢
    rw [hinc]
    dsimp only
    rw [hfast]
    norm_num
    rw [h1]
    dsimp only
    rw [h2]

/-- Concrete instantiation of `claim_C1`: a vacant entry for `1 + 2`
resolves through the dispatch table, inserts the resolved entry under the
combined hash (7 for this engine) and calls it; a negative marker under the
same hash fails with `FunctionNotFound`. -/
theorem claim_C1_witness :
    eval_fn_call_fast baseEngine "+" 5 0 (.int 1) (.int 2) 2 ⟨0, []⟩
      = (.ok (.int 3),
         ⟨0, [(7, some ⟨fun a b => int_add (a.as_int.toOption.getD 0)
              (b.as_int.toOption.getD 0), none⟩)]⟩) ∧
    eval_fn_call_fast baseEngine "+" 5 0 (.int 1) (.int 2) 2 ⟨0, [(7, none)]⟩
      = (.error (.errFunctionNotFound "+" 0), ⟨0, [(7, none)]⟩) := by
  constructor
  · have h := (claim_C1 baseEngine "+" 5 0 (.int 1) (.int 2) ⟨0, []⟩).1
      (fun a b => int_add (a.as_int.toOption.getD 0) (b.as_int.toOption.getD 0)) rfl rfl
    exact h.trans (by rfl)
  · have h := (claim_C1 baseEngine "+" 5 0 (.int 1) (.int 2) ⟨0, [(7, none)]⟩).2.2.2.2.1
      2 [.int 1, .int 2] (Or.inl ⟨rfl, rfl⟩) rfl
    exact h.trans (by rfl)

/-- C7: the array-literal loop evaluates elements strictly left to right,
flattening and pushing each value; with a data-size limit configured, the
cumulative sizes are checked after each push and a breach raises
`DataTooLarge` at the offending element's position; an element error stops
the loop with the remaining elements never evaluated (they are universally
quantified and absent from the result); and the array expression returns
the accumulated values. -/
theorem claim_C7 (E : Engine) (s' : St) :
    (∀ e rest acc sizes v s1, E.has_data_size_limit = false →
      evalExpr E e s' = (.ok v, s1) →
      evalArrayItems E (e :: rest) acc sizes s'
        = evalArrayItems E rest (acc ++ [v.flatten]) sizes s1) ∧
    (∀ e rest acc sizes sizes1 v s1, E.has_data_size_limit = true →
      sizes1 = (sizes.1 + (calc_data_sizes v.flatten).1,
                sizes.2.1 + (calc_data_sizes v.flatten).2.1,
                sizes.2.2 + (calc_data_sizes v.flatten).2.2) →
      evalExpr E e s' = (.ok v, s1) →
      raise_err_if_over_data_size_limit E sizes1 e.pos = none →
      evalArrayItems E (e :: rest) acc sizes s'
        = evalArrayItems E rest (acc ++ [v.flatten]) sizes1 s1) ∧
    (∀ e rest acc sizes sizes1 v s1 er, E.has_data_size_limit = true →
      sizes1 = (sizes.1 + (calc_data_sizes v.flatten).1,
                sizes.2.1 + (calc_data_sizes v.flatten).2.1,
                sizes.2.2 + (calc_data_sizes v.flatten).2.2) →
      evalExpr E e s' = (.ok v, s1) →
      raise_err_if_over_data_size_limit E sizes1 e.pos = some er →
      evalArrayItems E (e :: rest) acc sizes s' = (.error er, s1)) ∧
    (∀ szs q er, raise_err_if_over_data_size_limit E szs q = some er →
      er = .errDataTooLarge q) ∧
    (∀ e rest acc sizes err s1,
      evalExpr E e s' = (.error err, s1) →
      evalArrayItems E (e :: rest) acc sizes s' = (.error err, s1)) ∧
    (∀ items p s n, inc_operations E s.numOps p = (none, n) → s' = { s with numOps := n } →
      (∀ xs s1, evalArrayItems E items [] (0, 0, 0) s' = (.ok xs, s1) →
        evalExpr E (.arrayLit items p) s = (.ok (.array xs), s1)) ∧
      (∀ err s1, evalArrayItems E items [] (0, 0, 0) s' = (.error err, s1) →
        evalExpr E (.arrayLit items p) s = (.error err, s1))) := by
  refine ⟨?_, ?_, ?_, ?_, ?_, ?_⟩
  · intro e rest acc sizes v s1 hnl hok
    rw [evalArrayItems.eq_2]
    rw [hok]
    dsimp only
    rw [if_neg (by simp [hnl])]
  · intro e rest acc sizes sizes1 v s1 hl heq hok hraise
    rw [evalArrayItems.eq_2]
    rw [hok]
    dsimp only
    rw [if_pos hl]
    rw [← heq]
    rw [hraise]
  · intro e rest acc sizes sizes1 v s1 er hl heq hok hraise
    rw [evalArrayItems.eq_2]
    rw [hok]
    dsimp only
    rw [if_pos hl]
    rw [← heq]
    rw [hraise]
  · intro szs q er hr
    simp only [raise_err_if_over_data_size_limit] at hr
    split at hr
    · injection hr with hr
      exact hr.symm
    · cases hr
  · intro e rest acc sizes err s1 herr
    rw [evalArrayItems.eq_2]
    rw [herr]
  · intro items p s n hinc hs'
    subst hs'
    constructor
    · intro xs s1 hitems
      rw [evalExpr.eq_1]
      simp only [Expr.pos] at hinc ⊢
      rw [hinc]
      dsimp only
      rw [hitems]
    · intro err s1 hitems
      rw [evalExpr.eq_1]
      simp only [Expr.pos] at hinc ⊢
      rw [hinc]
      dsimp only
      rw [hitems]

/-- An engine with a string-bytes data-size limit of 4. -/
def limitEngine : Engine := { baseEngine with max_string_size := 4 }

/-- Concrete instantiation of `claim_C7`: in `["abc", "xy"]` under a
4-byte string limit, the first element passes the post-push check and the
second exceeds the cumulative limit, raising `DataTooLarge` at its
position while the loop stops there. -/
theorem claim_C7_witness :
    evalExpr limitEngine
        (.arrayLit [.strConst "abc" 1, .strConst "xy" 2] 0) ⟨0, []⟩
      = (.error (.errDataTooLarge 2), ⟨3, []⟩) := by
  have hstep1 := (claim_C7 limitEngine ⟨1, []⟩).2.1 (.strConst "abc" 1)
    [.strConst "xy" 2] [] (0, 0, 0) (0, 0, 3) (.str "abc") ⟨2, []⟩ rfl
    (by simp [calc_data_sizes, Dynamic.flatten]; decide)
    (by simp [evalExpr, inc_operations, limitEngine, baseEngine])
    (by decide)
  have hstep2 := (claim_C7 limitEngine ⟨2, []⟩).2.2.1 (.strConst "xy" 2)
    [] [Dynamic.str "abc"] (0, 0, 3) (0, 0, 5) (.str "xy") ⟨3, []⟩ (.errDataTooLarge 2) rfl
    (by simp [calc_data_sizes, Dynamic.flatten]; decide)
    (by simp [evalExpr, inc_operations, limitEngine, baseEngine])
    (by decide)
  have htie := ((claim_C7 limitEngine ⟨1, []⟩).2.2.2.2.2
    [.strConst "abc" 1, .strConst "xy" 2] 0 ⟨0, []⟩ 1 rfl rfl).2
    (.errDataTooLarge 2) ⟨3, []⟩
  apply htie
  rw [hstep1]
  exact hstep2

theorem inc_operations_none {E : Engine} {m : Nat} {pos : Pos} {n : Nat}
    (h : inc_operations E m pos = (none, n)) :
    n = m + 1 ∧ ¬(0 < E.max_operations ∧ E.max_operations < m + 1) := by
  simp only [inc_operations] at h
  split at h
  · simp at h
  · rename_i hcond
    injection h with h1 h2
    exact ⟨h2.symm, hcond⟩

theorem inc_operations_some {E : Engine} {m : Nat} {pos : Pos} {err : ERR} {n : Nat}
    (h : inc_operations E m pos = (some err, n)) :
    n = m + 1 ∧ err = .errTooManyOperations pos := by
  simp only [inc_operations] at h
  split at h
  · injection h with h1 h2
    injection h1 with h1
    exact ⟨h2.symm, h1.symm⟩
  · simp at h

/-- The fast call path never changes the operation counter (it only touches
the cache). -/
theorem eval_fn_call_fast_numOps (E : Engine) (name : String) (h : Nat) (pos : Pos)
    (lhs rhs : Dynamic) (arity : Nat) (s : St) :
    (eval_fn_call_fast E name h pos lhs rhs arity s).2.numOps = s.numOps := by
  simp only [eval_fn_call_fast]
  repeat' split
  all_goals rfl

/-- The two-part counter invariant behind C8, proved by induction on a size
bound: starting at or below the ceiling, an evaluation ends at most one
increment above it, and a successful evaluation ends at or below it. -/
theorem evalExpr_numOps_invariant (E : Engine) (hc : 0 < E.max_operations) :
    ∀ N : Nat,
      (∀ e : Expr, sizeOf e < N → ∀ (s : St) r s', s.numOps ≤ E.max_operations →
        evalExpr E e s = (r, s') →
        s'.numOps ≤ E.max_operations + 1 ∧ (r.isOk = true → s'.numOps ≤ E.max_operations)) ∧
      (∀ items : List Expr, sizeOf items < N →
        ∀ acc sizes (s : St) r s', s.numOps ≤ E.max_operations →
        evalArrayItems E items acc sizes s = (r, s') →
        s'.numOps ≤ E.max_operations + 1 ∧ (r.isOk = true → s'.numOps ≤ E.max_operations)) := by
  intro N
  induction N with
  | zero =>
    constructor
    · intro e he
      omega
    · intro items hi
      omega
  | succ N ih =>
    obtain ⟨ihE, ihL⟩ := ih
    constructor
    · intro e he s r s' hs heval
      rw [evalExpr.eq_1] at heval
      rcases hI : inc_operations E s.numOps e.pos with ⟨o, n⟩
      rw [hI] at heval
      cases o with
      | some err =>
        obtain ⟨hn, herr⟩ := inc_operations_some hI
        dsimp only at heval
        injection heval with h1 h2
        subst h1
        subst h2
        exact ⟨by simp; omega, by intro hok; simp [Except.isOk, Except.toBool] at hok⟩
      | none =>
        obtain ⟨hn, hnot⟩ := inc_operations_none hI
        have hnle : n ≤ E.max_operations := by omega
        dsimp only at heval
        cases e with
        | dynConst d p =>
          injection heval with h1 h2
          subst h1; subst h2
          exact ⟨by simp; omega, fun _ => by simp; omega⟩
        | intConst i p =>
          injection heval with h1 h2
          subst h1; subst h2
          exact ⟨by simp; omega, fun _ => by simp; omega⟩
        | strConst v p =>
          injection heval with h1 h2
          subst h1; subst h2
          exact ⟨by simp; omega, fun _ => by simp; omega⟩
        | charConst cch p =>
          injection heval with h1 h2
          subst h1; subst h2
          exact ⟨by simp; omega, fun _ => by simp; omega⟩
        | boolConst b p =>
          injection heval with h1 h2
          subst h1; subst h2
          exact ⟨by simp; omega, fun _ => by simp; omega⟩
        | unitConst p =>
          injection heval with h1 h2
          subst h1; subst h2
          exact ⟨by simp; omega, fun _ => by simp; omega⟩
        | varRef v0 vname idx p =>
          dsimp only at heval
          by_cases hth : (idx = none ∧ v0 = none ∧ vname = "this")
          · rw [if_pos hth] at heval
            cases htp : E.this_ptr <;> rw [htp] at heval <;> dsimp only at heval <;>
              (injection heval with h1 h2; subst h1; subst h2) <;>
              exact ⟨by simp; omega, fun _ => by simp; omega⟩
          · rw [if_neg hth] at heval
            rcases hse : search_scope_only E E.scope v0 vname idx p with er | ⟨d, q⟩ <;>
              rw [hse] at heval <;> dsimp only at heval <;>
              (injection heval with h1 h2; subst h1; subst h2) <;>
              exact ⟨by simp; omega, fun _ => by simp; omega⟩
        | fnCall fname hashN isop args p =>
          dsimp only at heval
          split at heval
          · rcases args with _ | ⟨a1, _ | ⟨a2, moreArgs⟩⟩
            · injection heval with h1 h2
              subst h1; subst h2
              exact ⟨by simp; omega, fun _ => by simp; omega⟩
            · dsimp only at heval
              have ha1 : sizeOf a1 < N := by
                simp only [Expr.fnCall.sizeOf_spec, List.cons.sizeOf_spec] at he
                omega
              rcases h1e : evalExpr E a1 { numOps := n, cache := s.cache } with ⟨r1, s1⟩
              rw [h1e] at heval
              have hb1 := ihE a1 ha1 _ r1 s1 (by simp; omega) h1e
              cases r1 with
              | error err =>
                dsimp only at heval
                injection heval with h1 h2
                subst h1; subst h2
                exact ⟨hb1.1, fun hok => by simp [Except.isOk, Except.toBool] at hok⟩
              | ok v1 =>
                dsimp only at heval
                have hs1 : s1.numOps ≤ E.max_operations := hb1.2 rfl
                have hpres := eval_fn_call_fast_numOps E fname hashN p v1.flatten .unit 1 s1
                rw [heval] at hpres; dsimp only at hpres
                exact ⟨by omega, fun _ => by omega⟩
            · rcases moreArgs with _ | ⟨a3, more⟩
              · dsimp only at heval
                have ha1 : sizeOf a1 < N := by
                  simp only [Expr.fnCall.sizeOf_spec, List.cons.sizeOf_spec] at he
                  omega
                have ha2 : sizeOf a2 < N := by
                  simp only [Expr.fnCall.sizeOf_spec, List.cons.sizeOf_spec] at he
                  omega
                rcases h1e : evalExpr E a1 { numOps := n, cache := s.cache } with ⟨r1, s1⟩
                rw [h1e] at heval
                have hb1 := ihE a1 ha1 _ r1 s1 (by simp; omega) h1e
                cases r1 with
                | error err =>
                  dsimp only at heval
                  injection heval with h1 h2
                  subst h1; subst h2
                  exact ⟨hb1.1, fun hok => by simp [Except.isOk, Except.toBool] at hok⟩
                | ok v1 =>
                  dsimp only at heval
                  have hs1 : s1.numOps ≤ E.max_operations := hb1.2 rfl
                  rcases h2e : evalExpr E a2 s1 with ⟨r2, s2⟩
                  rw [h2e] at heval
                  have hb2 := ihE a2 ha2 s1 r2 s2 hs1 h2e
                  cases r2 with
                  | error err =>
                    dsimp only at heval
                    injection heval with h1 h2
                    subst h1; subst h2
                    exact ⟨hb2.1, fun hok => by simp [Except.isOk, Except.toBool] at hok⟩
                  | ok v2 =>
                    dsimp only at heval
                    have hs2 : s2.numOps ≤ E.max_operations := hb2.2 rfl
                    have hpres := eval_fn_call_fast_numOps E fname hashN p
                      v1.flatten v2.flatten 2 s2
                    rw [heval] at hpres; dsimp only at hpres
                    exact ⟨by omega, fun _ => by omega⟩
              · dsimp only at heval
                injection heval with h1 h2
                subst h1; subst h2
                exact ⟨by simp; omega, fun _ => by simp; omega⟩
          · injection heval with h1 h2
            subst h1; subst h2
            exact ⟨by simp; omega, fun _ => by simp; omega⟩
        | andE lhs rhs p =>
          dsimp only at heval
          have hl : sizeOf lhs < N := by
            simp only [Expr.andE.sizeOf_spec] at he
            omega
          have hr : sizeOf rhs < N := by
            simp only [Expr.andE.sizeOf_spec] at he
            omega
          rcases h1e : evalExpr E lhs { numOps := n, cache := s.cache } with ⟨r1, s1⟩
          rw [h1e] at heval
          have hb1 := ihE lhs hl _ r1 s1 (by simp; omega) h1e
          cases r1 with
          | error err =>
            dsimp only at heval
            injection heval with h1 h2
            subst h1; subst h2
            exact ⟨hb1.1, fun hok => by simp [Except.isOk, Except.toBool] at hok⟩
          | ok v =>
            dsimp only at heval
            have hs1 : s1.numOps ≤ E.max_operations := hb1.2 rfl
            rcases hvb : v.as_bool with typ | b
            · rw [hvb] at heval
              dsimp only at heval
              injection heval with h1 h2
              subst h1; subst h2
              exact ⟨by omega, fun _ => by omega⟩
            · rw [hvb] at heval
              cases b with
              | false =>
                dsimp only at heval
                injection heval with h1 h2
                subst h1; subst h2
                exact ⟨by omega, fun _ => by omega⟩
              | true =>
                dsimp only at heval
                rcases h2e : evalExpr E rhs s1 with ⟨r2, s2⟩
                rw [h2e] at heval
                have hb2 := ihE rhs hr s1 r2 s2 hs1 h2e
                cases r2 with
                | error err =>
                  dsimp only at heval
                  injection heval with h1 h2
                  subst h1; subst h2
                  exact ⟨hb2.1, fun hok => by simp [Except.isOk, Except.toBool] at hok⟩
                | ok v2 =>
                  dsimp only at heval
                  have hs2 : s2.numOps ≤ E.max_operations := hb2.2 rfl
                  rcases hvb2 : v2.as_bool with typ2 | b2 <;> rw [hvb2] at heval <;>
                    dsimp only at heval <;>
                    (injection heval with h1 h2; subst h1; subst h2) <;>
                    exact ⟨by omega, fun _ => by omega⟩
        | orE lhs rhs p =>
          dsimp only at heval
          have hl : sizeOf lhs < N := by
            simp only [Expr.orE.sizeOf_spec] at he
            omega
          have hr : sizeOf rhs < N := by
            simp only [Expr.orE.sizeOf_spec] at he
            omega
          rcases h1e : evalExpr E lhs { numOps := n, cache := s.cache } with ⟨r1, s1⟩
          rw [h1e] at heval
          have hb1 := ihE lhs hl _ r1 s1 (by simp; omega) h1e
          cases r1 with
          | error err =>
            dsimp only at heval
            injection heval with h1 h2
            subst h1; subst h2
            exact ⟨hb1.1, fun hok => by simp [Except.isOk, Except.toBool] at hok⟩
          | ok v =>
            dsimp only at heval
            have hs1 : s1.numOps ≤ E.max_operations := hb1.2 rfl
            rcases hvb : v.as_bool with typ | b
            · rw [hvb] at heval
              dsimp only at heval
              injection heval with h1 h2
              subst h1; subst h2
              exact ⟨by omega, fun _ => by omega⟩
            · rw [hvb] at heval
              cases b with
              | true =>
                dsimp only at heval
                injection heval with h1 h2
                subst h1; subst h2
                exact ⟨by omega, fun _ => by omega⟩
              | false =>
                dsimp only at heval
                rcases h2e : evalExpr E rhs s1 with ⟨r2, s2⟩
                rw [h2e] at heval
                have hb2 := ihE rhs hr s1 r2 s2 hs1 h2e
                cases r2 with
                | error err =>
                  dsimp only at heval
                  injection heval with h1 h2
                  subst h1; subst h2
                  exact ⟨hb2.1, fun hok => by simp [Except.isOk, Except.toBool] at hok⟩
                | ok v2 =>
                  dsimp only at heval
                  have hs2 : s2.numOps ≤ E.max_operations := hb2.2 rfl
                  rcases hvb2 : v2.as_bool with typ2 | b2 <;> rw [hvb2] at heval <;>
                    dsimp only at heval <;>
                    (injection heval with h1 h2; subst h1; subst h2) <;>
                    exact ⟨by omega, fun _ => by omega⟩
        | coalesceE lhs rhs p =>
          dsimp only at heval
          have hl : sizeOf lhs < N := by
            simp only [Expr.coalesceE.sizeOf_spec] at he
            omega
          have hr : sizeOf rhs < N := by
            simp only [Expr.coalesceE.sizeOf_spec] at he
            omega
          rcases h1e : evalExpr E lhs { numOps := n, cache := s.cache } with ⟨r1, s1⟩
          rw [h1e] at heval
          have hb1 := ihE lhs hl _ r1 s1 (by simp; omega) h1e
          cases r1 with
          | error err =>
            dsimp only at heval
            injection heval with h1 h2
            subst h1; subst h2
            exact ⟨hb1.1, fun hok => by simp [Except.isOk, Except.toBool] at hok⟩
          | ok v =>
            dsimp only at heval
            have hs1 : s1.numOps ≤ E.max_operations := hb1.2 rfl
            split at heval
            · exact ihE rhs hr s1 r s' hs1 heval
            · injection heval with h1 h2
              subst h1; subst h2
              exact ⟨by omega, fun _ => by omega⟩
        | arrayLit items p =>
          dsimp only at heval
          have hi : sizeOf items < N := by
            simp only [Expr.arrayLit.sizeOf_spec] at he
            omega
          rcases hle : evalArrayItems E items [] (0, 0, 0) { numOps := n, cache := s.cache }
            with ⟨rl, sl⟩
          rw [hle] at heval
          have hbl := ihL items hi [] (0, 0, 0) _ rl sl (by simp; omega) hle
          cases rl with
          | error err =>
            dsimp only at heval
            injection heval with h1 h2
            subst h1; subst h2
            exact ⟨hbl.1, fun hok => by simp [Except.isOk, Except.toBool] at hok⟩
          | ok xs =>
            dsimp only at heval
            injection heval with h1 h2
            subst h1; subst h2
            have := hbl.2 rfl
            exact ⟨by omega, fun _ => by omega⟩
    · intro items hi acc sizes s r s' hs heval
      cases items with
      | nil =>
        rw [evalArrayItems.eq_1] at heval
        injection heval with h1 h2
        subst h1; subst h2
        exact ⟨by omega, fun _ => by omega⟩
      | cons e restI =>
        have hee : sizeOf e < N := by
          simp only [List.cons.sizeOf_spec] at hi
          omega
        have hri : sizeOf restI < N := by
          simp only [List.cons.sizeOf_spec] at hi
          omega
        rw [evalArrayItems.eq_2] at heval
        rcases h1e : evalExpr E e s with ⟨r1, s1⟩
        rw [h1e] at heval
        have hb1 := ihE e hee s r1 s1 hs h1e
        cases r1 with
        | error err =>
          dsimp only at heval
          injection heval with h1 h2
          subst h1; subst h2
          exact ⟨hb1.1, fun hok => by simp [Except.isOk, Except.toBool] at hok⟩
        | ok v =>
          dsimp only at heval
          have hs1 : s1.numOps ≤ E.max_operations := hb1.2 rfl
          split at heval
          · split at heval
            · injection heval with h1 h2
              subst h1; subst h2
              exact ⟨by omega, fun hok => by simp [Except.isOk, Except.toBool] at hok⟩
            · exact ihL restI hri _ _ s1 r s' hs1 heval
          · exact ihL restI hri _ _ s1 r s' hs1 heval

/-- C8: every expression visit runs through the operation counter exactly
once before the expression kind itself is evaluated: with the counter at or
above a positive ceiling, any expression halts immediately with
`TooManyOperations` at the expression's position and a single further
increment; a leaf visit under the ceiling costs exactly one increment; and
an evaluation starting at or below the ceiling ends within one increment
above it — at most ceiling + 1 visits in total. -/
theorem claim_C8 (E : Engine) (hc : 0 < E.max_operations) :
    (∀ e (s : St), E.max_operations ≤ s.numOps →
      evalExpr E e s
        = (.error (.errTooManyOperations e.pos), { s with numOps := s.numOps + 1 })) ∧
    (∀ i p (s : St), s.numOps + 1 ≤ E.max_operations →
      evalExpr E (.intConst i p) s = (.ok (.int i), { s with numOps := s.numOps + 1 })) ∧
    (∀ e (s : St) r s', s.numOps ≤ E.max_operations → evalExpr E e s = (r, s') →
      s'.numOps ≤ E.max_operations + 1 ∧ (r.isOk = true → s'.numOps ≤ E.max_operations)) := by
  refine ⟨?_, ?_, ?_⟩
  · intro e s hge
    rw [evalExpr.eq_1]
    have hI : inc_operations E s.numOps e.pos
        = (some (.errTooManyOperations e.pos), s.numOps + 1) := by
      simp only [inc_operations]
      rw [if_pos ⟨hc, by omega⟩]
    rw [hI]
  · intro i p s hlt
    rw [evalExpr.eq_1]
    have hI : inc_operations E s.numOps (Expr.intConst i p).pos = (none, s.numOps + 1) := by
      simp only [inc_operations]
      rw [if_neg (by omega)]
    rw [hI]
  · intro e s r s' hs heval
    exact (evalExpr_numOps_invariant E hc (sizeOf e + 1)).1 e (by omega) s r s' hs heval

/-- Concrete instantiation of `claim_C8`: under a ceiling of 2, the third
visit of a nested `&&` halts with `TooManyOperations` at the inner
expression's position, and the leaf increment and the bound hold at a
concrete state. -/
theorem claim_C8_witness :
    evalExpr { baseEngine with max_operations := 2 }
        (.andE (.boolConst true 1) (.andE (.boolConst true 2) (.boolConst true 3) 4) 0)
        ⟨0, []⟩
      = (.error (.errTooManyOperations 4), ⟨3, []⟩) ∧
    evalExpr { baseEngine with max_operations := 2 } (.intConst 7 9) ⟨0, []⟩
      = (.ok (.int 7), ⟨1, []⟩) ∧
    (evalExpr { baseEngine with max_operations := 2 }
        (.andE (.boolConst true 1) (.andE (.boolConst true 2) (.boolConst true 3) 4) 0)
        ⟨0, []⟩).2.numOps ≤ 3 := by
  have Econf : (0 : Nat) < ({ baseEngine with max_operations := 2 } : Engine).max_operations := by
    decide
  have hhalt := (claim_C8 { baseEngine with max_operations := 2 } Econf).1
    (.andE (.boolConst true 2) (.boolConst true 3) 4) ⟨2, []⟩ (by decide)
  have hleaf := (claim_C8 { baseEngine with max_operations := 2 } Econf).2.1 7 9 ⟨0, []⟩
    (by decide)
  refine ⟨?_, hleaf, ?_⟩
  ·
    rw [evalExpr.eq_1]
    dsimp only [Expr.pos]
    rw [show inc_operations { baseEngine with max_operations := 2 } 0 0 = (none, 1) from rfl]
    dsimp only
    rw [show evalExpr { baseEngine with max_operations := 2 } (.boolConst true 1) ⟨1, []⟩
      = (.ok (.boolean true), ⟨2, []⟩) from by
        rw [evalExpr.eq_1]
        dsimp only [Expr.pos]
        rw [show inc_operations { baseEngine with max_operations := 2 } 1 1
          = (none, 2) from rfl]]
    dsimp only [Dynamic.as_bool]
    rw [hhalt]
    dsimp only [Expr.pos]
  ·
    rw [evalExpr.eq_1]
    dsimp only [Expr.pos]
    rw [show inc_operations { baseEngine with max_operations := 2 } 0 0 = (none, 1) from rfl]
    dsimp only
    rw [show evalExpr { baseEngine with max_operations := 2 } (.boolConst true 1) ⟨1, []⟩
      = (.ok (.boolean true), ⟨2, []⟩) from by
        rw [evalExpr.eq_1]
        dsimp only [Expr.pos]
        rw [show inc_operations { baseEngine with max_operations := 2 } 1 1
          = (none, 2) from rfl]]
    dsimp only [Dynamic.as_bool]
    rw [hhalt]

end Rhai
